import Mathlib

/-!
# Campaign creation (`v2/collections/campaigns.go`), the strategies and the handlers

A shallow embedding of `CampaignsCollection.Create`, `checkForExistence` and `Get`, of the
queue configuration of `application/mother.go`, and of the handlers
`messages.GetHandler.ServeHTTP` and `campaigntypes.ShowHandler.ServeHTTP`.
The collaborators of the collection (finders, repositories, enqueuer) are Go
interfaces: each method is a function of an abstract world `W`, returning its Go
results and the next world.  Every call is also written to a transcript, so that
"is called once" and "is not consulted" are statements about that transcript.
-/

namespace notifications

/-- Go `error` values.  `errorString` is what `errors.New` and `fmt.Errorf` build;
`RecordNotFoundError` is a value of dynamic type `models.RecordNotFoundError`; the four
collection errors wrap another error; `foreign` is a value of any other dynamic type. -/
inductive GoError where
  | errorString (msg : String)
  | RecordNotFoundError (msg : String)
  | UnknownError (err : GoError)
  | NotFoundError (err : GoError)
  | PermissionsError (err : GoError)
  | PersistenceError (err : GoError)
  | foreign (dynType : String) (msg : String)
  deriving DecidableEq, Repr

/-- Handle standing for a `models.ConnectionInterface` value. -/
abbrev ConnectionInterface := Nat

/-- A Go `map[string]string`: `none` is the nil map, `some es` holds the entries in the
order in which `range` visits them during the run at hand. -/
abbrev StringMap := Option (List (String × String))

namespace StringMap

/-- The Go index expression `m[k]`: the value stored under `k`, or the zero string. -/
def index (m : StringMap) (k : String) : String :=
  match m with
  | none => ""
  | some es =>
    match es.find? (fun e => e.1 == k) with
    | some e => e.2
    | none => ""

/-- The loop `for key, _ := range m { audience = key }` started from `var audience string`. -/
def rangeLastKey (m : StringMap) : String :=
  match m with
  | none => ""
  | some es => es.foldl (fun _ e => e.1) ""

end StringMap

/-! ## The parts of the Go library that the collection uses -/

namespace unicode

/-- Go `unicode.IsPrint`: the Latin-1 fast path is the library code; above `0xFF` the
library searches its Unicode tables, which are the parameter `table`. -/
def IsPrint (table : Nat → Bool) (r : Char) : Bool :=
  if r.toNat ≤ 0xFF then
    if 0x20 ≤ r.toNat ∧ r.toNat ≤ 0x7E then true
    else if 0xA1 ≤ r.toNat ∧ r.toNat ≤ 0xFF then r.toNat != 0xAD
    else false
  else table r.toNat

end unicode

namespace strconv

/-- Go `lowerhex[n]`. -/
def lowerhex (n : Nat) : Char :=
  "0123456789abcdef".toList.getD (n % 16) '0'

/-- The digits written by `for s := top; s >= 0; s -= 4 { lowerhex[r>>s&0xF] }`, where
`top = 4 * (count - 1)`. -/
def hexDigits (r : Nat) : Nat → List Char
  | 0 => []
  | count + 1 => lowerhex (r >>> (4 * count)) :: hexDigits r count

/-- Go `strconv.appendEscapedRune` with `quote = '"'`, `ASCIIonly = false` and
`graphicOnly = false`, on a valid rune. -/
def appendEscapedRune (table : Nat → Bool) (buf : String) (r : Char) : String :=
  if r = '"' ∨ r = '\\' then (buf.push '\\').push r
  else if unicode.IsPrint table r then buf.push r
  else if r.toNat = 0x07 then buf ++ "\\a"
  else if r.toNat = 0x08 then buf ++ "\\b"
  else if r.toNat = 0x0C then buf ++ "\\f"
  else if r.toNat = 0x0A then buf ++ "\\n"
  else if r.toNat = 0x0D then buf ++ "\\r"
  else if r.toNat = 0x09 then buf ++ "\\t"
  else if r.toNat = 0x0B then buf ++ "\\v"
  else if r.toNat < 0x20 ∨ r.toNat = 0x7F then
    ((buf ++ "\\x").push (lowerhex (r.toNat >>> 4))).push (lowerhex r.toNat)
  else if r.toNat < 0x10000 then buf ++ "\\u" ++ String.mk (hexDigits r.toNat 4)
  else buf ++ "\\U" ++ String.mk (hexDigits r.toNat 8)

/-- Go `strconv.Quote`, which is what the verb `%q` of `fmt` writes for a string.  Go
strings are modelled by Lean strings, so the input is valid UTF-8 and the branch of the
library for an undecodable byte is not reached. -/
def Quote (table : Nat → Bool) (s : String) : String :=
  (s.toList.foldl (appendEscapedRune table) "\"").push '"'

/-- A rune that `Quote` copies unchanged: printable, and neither the quote nor the backslash. -/
def Plain (table : Nat → Bool) (r : Char) : Prop :=
  r ≠ '"' ∧ r ≠ '\\' ∧ unicode.IsPrint table r = true

end strconv

/-- The Go library as far as the collection depends on it: the Unicode tables behind
`unicode.IsPrint`, and `json.Marshal` at the type `map[string]string`. -/
structure GoLibrary where
  printTable : Nat → Bool
  jsonMarshal : StringMap → String × Option GoError

/-! ## Data model -/

namespace models

/-- The fields of `models.Campaign` that the collection reads or writes. -/
structure Campaign where
  ID : String := ""
  SendTo : String := ""
  CampaignTypeID : String := ""
  Text : String := ""
  HTML : String := ""
  Subject : String := ""
  TemplateID : String := ""
  ReplyTo : String := ""
  SenderID : String := ""
  deriving DecidableEq, Repr

/-- The fields of `models.CampaignType` that the collection reads. -/
structure CampaignType where
  ID : String := ""
  Critical : Bool := false
  TemplateID : String := ""
  deriving DecidableEq, Repr

/-- A `models.Template`; the collection discards it. -/
structure Template where
  ID : String := ""
  deriving DecidableEq, Repr

end models

namespace collections

/-- Go `collections.Campaign`; the default value is the zero value `Campaign{}`. -/
structure Campaign where
  ID : String := ""
  SendTo : StringMap := none
  CampaignTypeID : String := ""
  Text : String := ""
  HTML : String := ""
  Subject : String := ""
  TemplateID : String := ""
  ReplyTo : String := ""
  SenderID : String := ""
  ClientID : String := ""
  deriving DecidableEq, Repr

/-- The three `existenceChecker` fields of the collection. -/
inductive Finder where
  | user
  | space
  | org
  deriving DecidableEq, Repr

/-- The audience key under which a finder is consulted. -/
def Finder.audience : Finder → String
  | .user => "user"
  | .space => "space"
  | .org => "org"

/-- One collaborator call, with its arguments and its results. -/
inductive Call where
  | Exists (finder : Finder) (guid : String) (found : Bool) (err : Option GoError)
  | campaignTypesGet (conn : ConnectionInterface) (campaignTypeID : String)
      (ret : models.CampaignType) (err : Option GoError)
  | templatesGet (conn : ConnectionInterface) (templateID : String)
      (ret : models.Template) (err : Option GoError)
  | campaignsGet (conn : ConnectionInterface) (campaignID : String)
      (ret : models.Campaign) (err : Option GoError)
  | campaignsSet (conn : ConnectionInterface) (campaign : models.Campaign)
      (ret : models.Campaign) (err : Option GoError)
  | Enqueue (campaign : Campaign) (jobType : String) (err : Option GoError)
  deriving DecidableEq, Repr

namespace Call

/-- Calls of `campaignTypesRepo.Get`. -/
def isCampaignTypesGet : Call → Bool
  | campaignTypesGet .. => true
  | _ => false

/-- Calls of `templatesRepo.Get`. -/
def isTemplatesGet : Call → Bool
  | templatesGet .. => true
  | _ => false

/-- Calls of `campaignsRepo.Set`. -/
def isCampaignsSet : Call → Bool
  | campaignsSet .. => true
  | _ => false

/-- Calls of `enqueuer.Enqueue`. -/
def isEnqueue : Call → Bool
  | Enqueue .. => true
  | _ => false

/-- Calls of one of the three finders. -/
def isExists : Call → Bool
  | Exists .. => true
  | _ => false

end Call

/-- Go interface `campaignEnqueuer`. -/
structure campaignEnqueuer (W : Type) where
  Enqueue : Campaign → String → W → Option GoError × W

/-- Go interface `campaignsSetGetter`. -/
structure campaignsSetGetter (W : Type) where
  Get : ConnectionInterface → String → W → (models.Campaign × Option GoError) × W
  Set : ConnectionInterface → models.Campaign → W → (models.Campaign × Option GoError) × W

/-- Go interface `campaignTypesGetter`. -/
structure campaignTypesGetter (W : Type) where
  Get : ConnectionInterface → String → W → (models.CampaignType × Option GoError) × W

/-- Go interface `templatesGetter`. -/
structure templatesGetter (W : Type) where
  Get : ConnectionInterface → String → W → (models.Template × Option GoError) × W

/-- Go interface `existenceChecker`. -/
structure existenceChecker (W : Type) where
  Exists : String → W → (Bool × Option GoError) × W

/-- Go struct `CampaignsCollection`. -/
structure CampaignsCollection (W : Type) where
  enqueuer : campaignEnqueuer W
  campaignsRepo : campaignsSetGetter W
  campaignTypesRepo : campaignTypesGetter W
  templatesRepo : templatesGetter W
  userFinder : existenceChecker W
  spaceFinder : existenceChecker W
  orgFinder : existenceChecker W

/-- The state of a run: the collaborators' world and the calls made so far, oldest first. -/
structure Run (W : Type) where
  world : W
  calls : List Call

/-- How a Go function with results `(α, error)` ends: it returns, or it panics. -/
inductive Outcome (α : Type) where
  | returned (value : α) (err : Option GoError)
  | panicked (val : GoError)
  deriving DecidableEq, Repr

namespace CampaignsCollection

variable {W : Type}

/-- The finder held in the named field. -/
def finder (c : CampaignsCollection W) : Finder → existenceChecker W
  | .user => c.userFinder
  | .space => c.spaceFinder
  | .org => c.orgFinder

/-- A call `c.<finder>.Exists(guid)`. -/
def callExists (c : CampaignsCollection W) (f : Finder) (guid : String) (s : Run W) :
    (Bool × Option GoError) × Run W :=
  let r := (c.finder f).Exists guid s.world
  (r.1, ⟨r.2, s.calls ++ [Call.Exists f guid r.1.1 r.1.2]⟩)

/-- A call `c.campaignTypesRepo.Get(conn, id)`. -/
def callCampaignTypesGet (c : CampaignsCollection W) (conn : ConnectionInterface)
    (id : String) (s : Run W) : (models.CampaignType × Option GoError) × Run W :=
  let r := c.campaignTypesRepo.Get conn id s.world
  (r.1, ⟨r.2, s.calls ++ [Call.campaignTypesGet conn id r.1.1 r.1.2]⟩)

/-- A call `c.templatesRepo.Get(conn, id)`. -/
def callTemplatesGet (c : CampaignsCollection W) (conn : ConnectionInterface)
    (id : String) (s : Run W) : (models.Template × Option GoError) × Run W :=
  let r := c.templatesRepo.Get conn id s.world
  (r.1, ⟨r.2, s.calls ++ [Call.templatesGet conn id r.1.1 r.1.2]⟩)

/-- A call `c.campaignsRepo.Set(conn, m)`. -/
def callCampaignsSet (c : CampaignsCollection W) (conn : ConnectionInterface)
    (m : models.Campaign) (s : Run W) : (models.Campaign × Option GoError) × Run W :=
  let r := c.campaignsRepo.Set conn m s.world
  (r.1, ⟨r.2, s.calls ++ [Call.campaignsSet conn m r.1.1 r.1.2]⟩)

/-- A call `c.enqueuer.Enqueue(campaign, jobType)`. -/
def callEnqueue (c : CampaignsCollection W) (campaign : Campaign) (jobType : String)
    (s : Run W) : Option GoError × Run W :=
  let r := c.enqueuer.Enqueue campaign jobType s.world
  (r.1, ⟨r.2, s.calls ++ [Call.Enqueue campaign jobType r.1]⟩)

/-- Go `CampaignsCollection.checkForExistence`. -/
def checkForExistence (c : CampaignsCollection W) (lib : GoLibrary) (audience guid : String)
    (s : Run W) : (Bool × Option GoError) × Run W :=
  if audience = "user" then c.callExists .user guid s
  else if audience = "space" then c.callExists .space guid s
  else if audience = "org" then c.callExists .org guid s
  else if audience = "email" then ((true, none), s)
  else
    ((false, some (.errorString
      ("The " ++ strconv.Quote lib.printTable audience ++ " audience is not valid"))), s)

/-- The error that `Create` builds from a failed repository `Get`: the type switch on
`models.RecordNotFoundError`. -/
def wrapGetError (err : GoError) : GoError :=
  match err with
  | .RecordNotFoundError _ => .NotFoundError err
  | _ => .PersistenceError err

/-- The `models.Campaign` literal that `Create` passes to `campaignsRepo.Set`. -/
def setArgument (sendTo : String) (campaign : Campaign) : models.Campaign :=
  { SendTo := sendTo
    CampaignTypeID := campaign.CampaignTypeID
    Text := campaign.Text
    HTML := campaign.HTML
    Subject := campaign.Subject
    TemplateID := campaign.TemplateID
    ReplyTo := campaign.ReplyTo }

/-- The assignment `if campaign.TemplateID == "" { campaign.TemplateID = campaignType.TemplateID }`. -/
def resolveTemplate (campaign : Campaign) (campaignType : models.CampaignType) : Campaign :=
  if campaign.TemplateID = "" then { campaign with TemplateID := campaignType.TemplateID }
  else campaign

/-- The tail of `Create` from `json.Marshal` on (lines 110 to 135). -/
def persistAndEnqueue (c : CampaignsCollection W) (lib : GoLibrary)
    (conn : ConnectionInterface) (campaign : Campaign) (s : Run W) :
    Outcome Campaign × Run W :=
  match lib.jsonMarshal campaign.SendTo with
  | (_, some err) => (.panicked err, s)
  | (sendTo, none) =>
    match c.callCampaignsSet conn (setArgument sendTo campaign) s with
    | ((_, some err), s1) => (.panicked err, s1)
    | ((campaignModel, none), s1) =>
      let campaign1 := { campaign with ID := campaignModel.ID }
      match c.callEnqueue campaign1 "campaign" s1 with
      | (some err, s2) => (.returned {} (some (.PersistenceError err)), s2)
      | (none, s2) => (.returned campaign1 none, s2)

/-- The head of `Create` up to the template lookup (lines 67 to 108): `error err` stands
for `return Campaign{}, err`, and `ok campaign` for reaching line 110 with the local
`campaign`, whose template ID has been resolved. -/
def validate (c : CampaignsCollection W) (lib : GoLibrary) (conn : ConnectionInterface)
    (campaign : Campaign) (canSendCritical : Bool) (s : Run W) :
    Except GoError Campaign × Run W :=
  let audience := campaign.SendTo.rangeLastKey
  match c.checkForExistence lib audience (campaign.SendTo.index audience) s with
  | ((_, some err), s1) => (.error (.UnknownError err), s1)
  | ((false, none), s1) =>
    (.error (.NotFoundError (.errorString
      ("The " ++ audience ++ " " ++ strconv.Quote lib.printTable (campaign.SendTo.index audience)
        ++ " cannot be found"))), s1)
  | ((true, none), s1) =>
    match c.callCampaignTypesGet conn campaign.CampaignTypeID s1 with
    | ((_, some err), s2) => (.error (wrapGetError err), s2)
    | ((campaignType, none), s2) =>
      if campaignType.Critical && !canSendCritical then
        (.error (.PermissionsError
          (.errorString "Scope critical_notifications.write is required")), s2)
      else
        match c.callTemplatesGet conn (resolveTemplate campaign campaignType).TemplateID s2 with
        | ((_, some err), s3) => (.error (wrapGetError err), s3)
        | ((_, none), s3) => (.ok (resolveTemplate campaign campaignType), s3)

/-- Go `CampaignsCollection.Create`. -/
def Create (c : CampaignsCollection W) (lib : GoLibrary) (conn : ConnectionInterface)
    (campaign : Campaign) (canSendCritical : Bool) (s : Run W) :
    Outcome Campaign × Run W :=
  match c.validate lib conn campaign canSendCritical s with
  | (.error err, s1) => (.returned {} (some err), s1)
  | (.ok campaign1, s1) => c.persistAndEnqueue lib conn campaign1 s1

/-- The existence check with which `Create` starts (line 73). -/
def existenceStep (c : CampaignsCollection W) (lib : GoLibrary) (campaign : Campaign)
    (s : Run W) : (Bool × Option GoError) × Run W :=
  c.checkForExistence lib campaign.SendTo.rangeLastKey
    (campaign.SendTo.index campaign.SendTo.rangeLastKey) s

/-- The campaign type lookup of `Create` (line 82), made after the existence check. -/
def campaignTypeStep (c : CampaignsCollection W) (lib : GoLibrary)
    (conn : ConnectionInterface) (campaign : Campaign) (s : Run W) :
    (models.CampaignType × Option GoError) × Run W :=
  c.callCampaignTypesGet conn campaign.CampaignTypeID (c.existenceStep lib campaign s).2

end CampaignsCollection

end collections

namespace services

/-! ## The everyone strategy (`v1/services`)

The file that declares `EveryoneStrategy` is not among the sources at hand; its test
(`everyone_strategy_test.go`) and its construction (`Mother.EveryoneStrategy`) are. -/

/-- Go `time.Time`, as nanoseconds since the epoch. -/
abbrev Time := Int

/-- Go `services.HTML`, with the fields the test sets. -/
structure HTML where
  BodyContent : String := ""
  BodyAttributes : String := ""
  Head : String := ""
  Doctype : String := ""
  deriving DecidableEq, Repr

/-- Go `services.DispatchKind`. -/
structure DispatchKind where
  ID : String := ""
  Description : String := ""
  deriving DecidableEq, Repr

/-- Go `services.DispatchClient`. -/
structure DispatchClient where
  ID : String := ""
  Description : String := ""
  deriving DecidableEq, Repr

/-- Go `services.DispatchMessage`. -/
structure DispatchMessage where
  ReplyTo : String := ""
  Subject : String := ""
  To : String := ""
  Text : String := ""
  HTML : HTML := {}
  deriving DecidableEq, Repr

/-- Go `services.DispatchVCAPRequest`. -/
structure DispatchVCAPRequest where
  ID : String := ""
  ReceiptTime : Time := 0
  deriving DecidableEq, Repr

/-- Go `services.Dispatch`, with the fields the test sets and the audience selector of the
data model. -/
structure Dispatch where
  GUID : String := ""
  Connection : ConnectionInterface := 0
  Kind : DispatchKind := {}
  Client : DispatchClient := {}
  Message : DispatchMessage := {}
  UAAHost : String := ""
  VCAPRequest : DispatchVCAPRequest := {}
  deriving DecidableEq, Repr

/-- Go `services.User`: a recipient, with its GUID and its address when known. -/
structure User where
  GUID : String := ""
  Email : String := ""
  deriving DecidableEq, Repr

/-- Go `services.Options`. -/
structure Options where
  ReplyTo : String := ""
  Subject : String := ""
  To : String := ""
  KindID : String := ""
  KindDescription : String := ""
  SourceDescription : String := ""
  Text : String := ""
  HTML : HTML := {}
  Endorsement : String := ""
  deriving DecidableEq, Repr

/-- Go `cf.CloudControllerSpace`; the default value is the empty struct. -/
structure CloudControllerSpace where
  GUID : String := ""
  Name : String := ""
  OrganizationGUID : String := ""
  deriving DecidableEq, Repr

/-- Go `cf.CloudControllerOrganization`; the default value is the empty struct. -/
structure CloudControllerOrganization where
  GUID : String := ""
  Name : String := ""
  deriving DecidableEq, Repr

/-- Go `services.Response`: one recipient and its accepted status. -/
structure Response where
  Status : String := ""
  Recipient : String := ""
  deriving DecidableEq, Repr

/-- What `fakes.Enqueuer` records of one `Enqueue` call (`EnqueueCall.Receives`). -/
structure EnqueueReceives where
  Connection : ConnectionInterface
  Users : List User
  Options : Options
  Space : CloudControllerSpace
  Org : CloudControllerOrganization
  Client : String
  Scope : String
  VCAPRequestID : String
  UAAHost : String
  RequestReceived : Time
  deriving DecidableEq, Repr

/-- One collaborator call of a strategy, with its arguments and its results. -/
inductive Call where
  | Load (uaaHost : String) (token : String) (err : Option GoError)
  | AllUserGUIDs (token : String) (guids : List String) (err : Option GoError)
  | Enqueue (receives : EnqueueReceives) (responses : List Response) (err : Option GoError)
  deriving DecidableEq, Repr

/-- Calls of the Enqueuer. -/
def Call.isEnqueue : Call → Bool
  | Call.Enqueue .. => true
  | _ => false

/-- Modelled from the spec: the constant `services.EveryoneEndorsement`, whose declaration is
not among the sources; the text is the example the data model gives for the endorsement of
the everyone audience. -/
def EveryoneEndorsement : String := "This message was sent to everyone."

/-- Modelled from the spec: the struct `services.EveryoneStrategy`, built by
`NewEveryoneStrategy(tokenLoader, allUsers, enqueuer)`; the collaborators are the capabilities
`LoadToken(uaaHost)`, `AllGUIDs(token)` and the contract of `Enqueue`. -/
structure EveryoneStrategy (W : Type) where
  tokenLoader : String → W → (String × Option GoError) × W
  allUsers : String → W → (List String × Option GoError) × W
  enqueuer : EnqueueReceives → W → (List Response × Option GoError) × W

/-- The state of a run of a strategy: the collaborators' world and the calls so far. -/
structure Run (W : Type) where
  world : W
  calls : List Call

namespace EveryoneStrategy

variable {W : Type}

/-- Modelled from the spec: the Options every strategy variant assembles, copied from the
message, the kind and the client description of the Dispatch (this part of
`EveryoneStrategy.Dispatch` is not among the sources), with the variant's endorsement. -/
def options (dispatch : Dispatch) : Options :=
  { ReplyTo := dispatch.Message.ReplyTo
    Subject := dispatch.Message.Subject
    To := dispatch.Message.To
    KindID := dispatch.Kind.ID
    KindDescription := dispatch.Kind.Description
    SourceDescription := dispatch.Client.Description
    Text := dispatch.Message.Text
    HTML := dispatch.Message.HTML
    Endorsement := EveryoneEndorsement }

/-- Modelled from the spec: `EveryoneStrategy.Dispatch`, which is not among the sources.
It acquires a token for the UAA host, lists every known user GUID with it, and delegates
to the Enqueuer with the recipient list, the Options, the client ID, no scope, the empty
space and organization, the correlation ID, the UAA host and the receipt time; a failure
of either lookup aborts at once and is returned as it is. -/
def Dispatch (strategy : EveryoneStrategy W) (dispatch : Dispatch) (s : Run W) :
    (List Response × Option GoError) × Run W :=
  let t := strategy.tokenLoader dispatch.UAAHost s.world
  let s1 : Run W := ⟨t.2, s.calls ++ [Call.Load dispatch.UAAHost t.1.1 t.1.2]⟩
  match t.1.2 with
  | some err => (([], some err), s1)
  | none =>
    let g := strategy.allUsers t.1.1 s1.world
    let s2 : Run W := ⟨g.2, s1.calls ++ [Call.AllUserGUIDs t.1.1 g.1.1 g.1.2]⟩
    match g.1.2 with
    | some err => (([], some err), s2)
    | none =>
      let receives : EnqueueReceives :=
        { Connection := dispatch.Connection
          Users := g.1.1.map (fun guid => { GUID := guid })
          Options := options dispatch
          Space := {}
          Org := {}
          Client := dispatch.Client.ID
          Scope := ""
          VCAPRequestID := dispatch.VCAPRequest.ID
          UAAHost := dispatch.UAAHost
          RequestReceived := dispatch.VCAPRequest.ReceiptTime }
      let e := strategy.enqueuer receives s2.world
      (e.1, ⟨e.2, s2.calls ++ [Call.Enqueue receives e.1.1 e.1.2]⟩)

end EveryoneStrategy

end services

/-! ## Collaborators with canned answers, after `testing/fakes` -/

namespace fakes

open collections

/-- The world of the fake repositories and queue: the rows written and the jobs enqueued. -/
structure Store where
  rows : List models.Campaign := []
  jobs : List (Campaign × String) := []
  deriving DecidableEq, Repr

/-- The canned answers of the fakes. -/
structure Returns where
  found : Bool × Option GoError := (true, none)
  campaignType : models.CampaignType × Option GoError := ({}, none)
  template : models.Template × Option GoError := ({}, none)
  setError : Option GoError := none
  enqueueError : Option GoError := none

/-- A finder that gives the canned answer. -/
def finder (r : Returns) : existenceChecker Store :=
  ⟨fun _ w => (r.found, w)⟩

/-- A campaigns repository whose `Set` stores the row under the ID `campaign-id`, unless it
is told to fail. -/
def campaignsRepo (r : Returns) : campaignsSetGetter Store where
  Get := fun _ id w =>
    match w.rows.find? (fun m => m.ID == id) with
    | some m => ((m, none), w)
    | none => (({}, some (.RecordNotFoundError "campaign not found")), w)
  Set := fun _ m w =>
    match r.setError with
    | some err => (({}, some err), w)
    | none => (({ m with ID := "campaign-id" }, none),
        { w with rows := w.rows ++ [{ m with ID := "campaign-id" }] })

/-- A queue that records the job, unless it is told to fail. -/
def enqueuer (r : Returns) : campaignEnqueuer Store where
  Enqueue := fun campaign jobType w =>
    match r.enqueueError with
    | some err => (some err, w)
    | none => (none, { w with jobs := w.jobs ++ [(campaign, jobType)] })

/-- The collection built from the fakes. -/
def collection (r : Returns) : CampaignsCollection Store where
  enqueuer := enqueuer r
  campaignsRepo := campaignsRepo r
  campaignTypesRepo := ⟨fun _ _ w => (r.campaignType, w)⟩
  templatesRepo := ⟨fun _ _ w => (r.template, w)⟩
  userFinder := finder r
  spaceFinder := finder r
  orgFinder := finder r

/-- A library for the examples: every rune above Latin-1 counts as printable, and a map is
written as a JSON object of quoted strings (`null` for the nil map). -/
def library : GoLibrary where
  printTable := fun _ => true
  jsonMarshal := fun m =>
    match m with
    | none => ("null", none)
    | some es =>
      ("\x7b" ++ ",".intercalate
        (es.map (fun e => strconv.Quote (fun _ => true) e.1 ++ ":" ++ strconv.Quote (fun _ => true) e.2))
        ++ "\x7d", none)

/-- The empty run on the empty store. -/
def start : Run Store := ⟨{}, []⟩

/-- A campaign sent to one user. -/
def campaign : Campaign :=
  { SendTo := some [("user", "user-380")]
    CampaignTypeID := "type-1"
    Text := "hello"
    Subject := "greetings" }

/-- An everyone strategy with canned answers; the world counts the jobs accepted. -/
def everyone (token : String × Option GoError) (guids : List String × Option GoError) :
    services.EveryoneStrategy Nat where
  tokenLoader := fun _ w => (token, w)
  allUsers := fun _ w => (guids, w)
  enqueuer := fun receives w =>
    ((receives.Users.map (fun u => { Status := "queued", Recipient := u.GUID }), none),
      w + receives.Users.length)

/-- The dispatch of `everyone_strategy_test.go`. -/
def dispatch : services.Dispatch :=
  { Connection := 1
    Kind := { ID := "welcome_user", Description := "Your Official Welcome" }
    Client := { ID := "my-client", Description := "Welcome system" }
    Message :=
      { ReplyTo := "reply-to@example.com"
        Subject := "this is the subject"
        To := "dr@strangelove.com"
        Text := "Welcome to the system, now get off my lawn."
        HTML :=
          { BodyContent := "<p>Welcome to the system, now get off my lawn.</p>"
            BodyAttributes := "some-html-body-attributes"
            Head := "<head></head>"
            Doctype := "<html>" } }
    UAAHost := "my-uaa-host"
    VCAPRequest := { ID := "some-vcap-request-id", ReceiptTime := 1433799483180764129 } }

end fakes

/-! ## The queue configuration (`application/mother.go`) -/

namespace time

/-- Go `time.Duration`, an `int64` count of nanoseconds. -/
abbrev Duration := Int

/-- Go `time.Millisecond`. -/
def Millisecond : Duration := 1000000

/-- The value an `int64` holds after an arithmetic result `x`: two's complement wrap-around. -/
def wrapInt64 (x : Int) : Int :=
  (x + 9223372036854775808) % 18446744073709551616 - 9223372036854775808

/-- Go `a * b` at the type `time.Duration`. -/
def Duration.mul (a b : Duration) : Duration :=
  wrapInt64 (a * b)

end time

namespace gobble

/-- Go `gobble.Config`, with the field that `Mother.Queue` sets. -/
structure Config where
  WaitMaxDuration : time.Duration := 0
  deriving DecidableEq, Repr

end gobble

namespace application

/-- The field of `application.Environment` that `Mother.Queue` reads; it is a Go `int`, read
from the process environment by `NewEnvironment()`. -/
structure Environment where
  GobbleWaitMaxDuration : Int
  deriving DecidableEq, Repr

namespace Mother

/-- Go `Mother.Queue`: the `gobble.Config` it hands to `gobble.NewQueue`, for the environment
that `NewEnvironment()` returns. -/
def Queue (env : Environment) : gobble.Config :=
  { WaitMaxDuration := time.Duration.mul env.GobbleWaitMaxDuration time.Millisecond }

end Mother

end application

/-! ## Backoff of the queue -/

namespace gobble

/-- The backoff and retry values of the queue configuration. -/
structure Backoff where
  baseDelay : Nat
  ceiling : Nat
  maxRetries : Nat
  deriving DecidableEq, Repr

/-- The status of a Job. -/
inductive Status where
  | pending
  | leased
  | completed
  | failedPermanent
  deriving DecidableEq, Repr

/-- The attributes of a Job that `Fail` reads or writes; times are in nanoseconds. -/
structure Job where
  attempts : Nat := 0
  activeAt : Nat := 0
  status : Status := Status.pending
  deriving DecidableEq, Repr

/-- Modelled from the spec: the delay of the exponential backoff, which the queue code
(not among the sources) computes: base delay × 2^attempt, capped at the configured ceiling. -/
def delay (cfg : Backoff) (attempt : Nat) : Nat :=
  min (cfg.baseDelay * 2 ^ attempt) cfg.ceiling

/-- Modelled from the spec: the operation `Fail(jobID, reason)` of the queue, which is not
among the sources.  It increments the attempt count; if attempts < max retries it computes
the next `active_at` by the backoff and resets the status to pending; otherwise it marks the
Job failed-permanent.  `now` is the time of the call. -/
def Fail (cfg : Backoff) (now : Nat) (job : Job) : Job :=
  if job.attempts + 1 < cfg.maxRetries then
    { attempts := job.attempts + 1
      activeAt := now + delay cfg (job.attempts + 1)
      status := Status.pending }
  else
    { job with attempts := job.attempts + 1, status := Status.failedPermanent }

end gobble

/-! ## `CampaignsCollection.Get` -/

/-- The parts of `encoding/json` that the code depends on: the string encoder, which has no
error result, and `json.Unmarshal` into a `map[string]string`. -/
structure JSONLibrary where
  encodeString : String → String
  unmarshalStringMap : String → StringMap × Option GoError

namespace collections

namespace CampaignsCollection

variable {W : Type}

/-- A call `c.campaignsRepo.Get(conn, id)`. -/
def callCampaignsGet (c : CampaignsCollection W) (conn : ConnectionInterface)
    (id : String) (s : Run W) : (models.Campaign × Option GoError) × Run W :=
  let r := c.campaignsRepo.Get conn id s.world
  (r.1, ⟨r.2, s.calls ++ [Call.campaignsGet conn id r.1.1 r.1.2]⟩)

/-- Go `CampaignsCollection.Get`. -/
def Get (c : CampaignsCollection W) (jlib : JSONLibrary) (connection : ConnectionInterface)
    (campaignID senderID clientID : String) (s : Run W) : Outcome Campaign × Run W :=
  match c.callCampaignsGet connection campaignID s with
  | ((_, some err), s1) => (.panicked err, s1)
  | ((model, none), s1) =>
    match jlib.unmarshalStringMap model.SendTo with
    | (_, some err) => (.panicked err, s1)
    | (sendTo, none) =>
      (.returned
        { ID := campaignID
          SendTo := sendTo
          CampaignTypeID := model.CampaignTypeID
          Text := model.Text
          HTML := model.HTML
          Subject := model.Subject
          TemplateID := model.TemplateID
          ReplyTo := model.ReplyTo
          SenderID := model.SenderID } none, s1)

end CampaignsCollection

end collections

/-! ## The HTTP handlers (`web/v1/messages`, `v2/web/campaigntypes`) -/

namespace strings

/-- The loop of Go `strings.genSplit` for a separator that is not empty, on the runes still
to read: `skip` runes of a separator just found are still to pass, `cur` holds the runes
of the current piece, last first. -/
def splitFrom (sep : List Char) : List Char → Nat → List Char → List (List Char)
  | [], _, cur => [cur.reverse]
  | _ :: rest, skip + 1, cur => splitFrom sep rest skip cur
  | c :: rest, 0, cur =>
    if sep.isPrefixOf (c :: rest) then cur.reverse :: splitFrom sep rest (sep.length - 1) []
    else splitFrom sep rest 0 (c :: cur)

/-- Go `strings.Split(s, sep)`: the pieces of `s` between the occurrences of `sep`, found
from left to right without overlap; for the empty separator, the runes of `s`. -/
def Split (s sep : String) : List String :=
  if sep.toList = [] then s.toList.map (fun c => String.mk [c])
  else (splitFrom sep.toList s.toList 0 []).map String.mk

/-- Go `strings.Count(s, "/")`, the number of slashes of `s`. -/
def countSlash (s : String) : Nat :=
  s.toList.count '/'

/-- Go `strings.Contains(s, substr)`. -/
def Contains (s substr : String) : Prop :=
  substr.toList <:+: s.toList

/-- Go `strings.HasSuffix(s, suffix)`. -/
def HasSuffix (s suffix : String) : Prop :=
  suffix.toList <:+ s.toList

instance (s substr : String) : Decidable (Contains s substr) :=
  inferInstanceAs (Decidable (substr.toList <:+: s.toList))

instance (s suffix : String) : Decidable (HasSuffix s suffix) :=
  inferInstanceAs (Decidable (suffix.toList <:+ s.toList))

end strings

/-- The panic value of an index expression out of range. -/
def boundsError : GoError :=
  .foreign "runtime.boundsError" "runtime error: index out of range"

/-- The panic value of a failed type assertion `x.(T)`. -/
def typeAssertionError : GoError :=
  .foreign "runtime.TypeAssertionError" "interface conversion"

/-- The Go index expression `a[i]` on a slice of strings, where `i` is an `int`: `none`
stands for the run-time panic. -/
def indexSlice (a : List String) (i : Int) : Option String :=
  if i < 0 then none else a[i.toNat]?

namespace stack

/-- The Go values that the middleware stores in a `stack.Context`. -/
inductive Value where
  | string (s : String)
  | database (handle : Nat)
  | other (goType : String)
  deriving DecidableEq, Repr

/-- A `stack.Context`: the keys that are set, with their values. -/
abbrev Context := List (String × Value)

/-- Go `context.Get(key)`: the value stored under the key, or the nil interface (`none`). -/
def Context.Get (context : Context) (key : String) : Option Value :=
  match context.find? (fun e => e.1 == key) with
  | some e => some e.2
  | none => none

end stack

namespace json

/-- The values without fields that the handlers hand to `json.Marshal`, and a channel as a
value of a type that `json.Marshal` does not support. -/
inductive Scalar where
  | string (s : String)
  | bool (b : Bool)
  | channel
  deriving DecidableEq, Repr

/-- A Go value handed to `json.Marshal`: a scalar, or a struct or map, whose fields are
listed in the order in which the encoder writes them. -/
inductive Value where
  | scalar (x : Scalar)
  | object (fields : List (String × Scalar))
  deriving DecidableEq, Repr

/-- The encoder of a scalar: the error is `json.UnsupportedTypeError`. -/
def encodeScalar (jlib : JSONLibrary) : Scalar → String × Option GoError
  | .string s => (jlib.encodeString s, none)
  | .bool true => ("true", none)
  | .bool false => ("false", none)
  | .channel => ("", some (.foreign "json.UnsupportedTypeError" "json: unsupported type: chan int"))

/-- The encoder of the fields of an object, which stops at the first error. -/
def encodeFields (jlib : JSONLibrary) : List (String × Scalar) → List String × Option GoError
  | [] => ([], none)
  | (k, v) :: rest =>
    match encodeScalar jlib v with
    | (_, some err) => ([], some err)
    | (out, none) =>
      match encodeFields jlib rest with
      | (_, some err) => ([], some err)
      | (outs, none) => ((jlib.encodeString k ++ ":" ++ out) :: outs, none)

/-- Go `json.Marshal`. -/
def Marshal (jlib : JSONLibrary) : Value → String × Option GoError
  | .scalar x => encodeScalar jlib x
  | .object fields =>
    match encodeFields jlib fields with
    | (_, some err) => ("", some err)
    | (outs, none) => ("\x7b" ++ ",".intercalate outs ++ "\x7d", none)

end json

namespace messages

open collections (Outcome)

/-- Go `services.Message`, with the field the handler reads. -/
structure Message where
  Status : String := ""
  deriving DecidableEq, Repr

/-- One call of the handler on a collaborator or on the response writer. -/
inductive Call where
  | Find (database : Nat) (messageID : String) (ret : Message) (err : Option GoError)
  | errorWrite (err : GoError)
  | WriteHeader (status : Nat)
  | Write (output : String)
  deriving DecidableEq, Repr

/-- Go struct `GetHandler`: the `Find` method of its finder and the `Write` method of its
error writer. -/
structure GetHandler (W : Type) where
  finder : Nat → String → W → (Message × Option GoError) × W
  errorWriter : GoError → W → W

/-- The state of a run: the collaborators' world and the calls made so far, oldest first. -/
structure Run (W : Type) where
  world : W
  calls : List Call
  deriving DecidableEq

/-- The `document` that `ServeHTTP` builds: a struct with the one field `status`. -/
def document (status : String) : json.Value :=
  .object [("status", .string status)]

variable {W : Type}

/-- Go `writeJSON`. -/
def writeJSON (jlib : JSONLibrary) (status : Nat) (object : json.Value) (s : Run W) :
    Outcome Unit × Run W :=
  match json.Marshal jlib object with
  | (_, some err) => (.panicked err, s)
  | (output, none) =>
    (.returned () none, ⟨s.world, s.calls ++ [Call.WriteHeader status, Call.Write output]⟩)

/-- Go `GetHandler.ServeHTTP`, for the request path and the context of the request. -/
def GetHandler.ServeHTTP (h : GetHandler W) (jlib : JSONLibrary) (path : String)
    (context : stack.Context) (s : Run W) : Outcome Unit × Run W :=
  match indexSlice (strings.Split path "/messages/") 1 with
  | none => (.panicked boundsError, s)
  | some messageID =>
    match context.Get "database" with
    | some (.database database) =>
      let r := h.finder database messageID s.world
      let s1 : Run W := ⟨r.2, s.calls ++ [Call.Find database messageID r.1.1 r.1.2]⟩
      match r.1.2 with
      | some err => (.returned () none, ⟨h.errorWriter err s1.world, s1.calls ++ [Call.errorWrite err]⟩)
      | none => writeJSON jlib 200 (document r.1.1.Status) s1
    | _ => (.panicked typeAssertionError, s)

end messages

namespace campaigntypes

open collections (Outcome)

/-- Go `collections.CampaignType`, with the fields the handler reads. -/
structure CampaignType where
  ID : String := ""
  Name : String := ""
  Description : String := ""
  Critical : Bool := false
  deriving DecidableEq, Repr

/-- One call of the handler on the collection or on the response writer.  The arguments of
`Get` carry the names that the interface `collectionGetter` gives them. -/
inductive Call where
  | Get (conn : ConnectionInterface) (senderID : String) (campaignTypeID : String)
      (clientID : String) (ret : CampaignType) (err : Option GoError)
  | HeaderSet (key : String) (value : String)
  | WriteHeader (status : Nat)
  | Write (output : String)
  deriving DecidableEq, Repr

/-- Calls of `collection.Get`. -/
def Call.isGet : Call → Bool
  | Call.Get .. => true
  | _ => false

/-- Go interface `collectionGetter`:
`Get(conn, senderID, campaignTypeID, clientID string) (collections.CampaignType, error)`. -/
structure collectionGetter (W : Type) where
  Get : (conn : ConnectionInterface) → (senderID : String) → (campaignTypeID : String) →
    (clientID : String) → W → (CampaignType × Option GoError) × W

/-- Go struct `ShowHandler`. -/
structure ShowHandler (W : Type) where
  collection : collectionGetter W

/-- The state of a run: the collaborators' world and the calls made so far, oldest first. -/
structure Run (W : Type) where
  world : W
  calls : List Call
  deriving DecidableEq

/-- Go `err.Error()`; for the collection errors it is the message of the wrapped error,
which is also what the field `Message` of a `collections.NotFoundError` is taken to hold. -/
def errorText : GoError → String
  | .errorString msg => msg
  | .RecordNotFoundError msg => msg
  | .UnknownError err => errorText err
  | .NotFoundError err => errorText err
  | .PermissionsError err => errorText err
  | .PersistenceError err => errorText err
  | .foreign _ msg => msg

/-- The text that `fmt.Fprintf(writer, "\x7b\"errors\": [%q]\x7d", message)` writes. -/
def errorsBody (lib : GoLibrary) (message : String) : String :=
  "\x7b\"errors\": [" ++ strconv.Quote lib.printTable message ++ "]\x7d"

/-- The `jsonMap` of `ServeHTTP`, with its keys in the sorted order in which `json.Marshal`
writes a map. -/
def jsonMap (campaignType : CampaignType) : json.Value :=
  .object
    [("critical", .bool campaignType.Critical),
      ("description", .string campaignType.Description),
      ("id", .string campaignType.ID),
      ("name", .string campaignType.Name),
      ("template_id", .string "")]

variable {W : Type}

/-- The part of `ShowHandler.ServeHTTP` from the client ID check on (lines 46 to 83). -/
def ShowHandler.serveChecked (h : ShowHandler W) (lib : GoLibrary) (jlib : JSONLibrary)
    (senderID campaignTypeID : String) (context : stack.Context) (s : Run W) :
    Outcome Unit × Run W :=
  if context.Get "client_id" = some (.string "") then
    (.returned () none,
      ⟨s.world, s.calls ++ [Call.WriteHeader 401, Call.Write (errorsBody lib "missing client id")]⟩)
  else
    match context.Get "database" with
    | some (.database database) =>
      match context.Get "client_id" with
      | some (.string clientID) =>
        let r := h.collection.Get database campaignTypeID senderID clientID s.world
        let s1 : Run W :=
          ⟨r.2, s.calls ++ [Call.Get database campaignTypeID senderID clientID r.1.1 r.1.2]⟩
        match r.1.2 with
        | some (.NotFoundError e) =>
          (.returned () none, ⟨s1.world, s1.calls ++
            [Call.WriteHeader 404, Call.Write (errorsBody lib (errorText e))]⟩)
        | some err =>
          (.returned () none, ⟨s1.world, s1.calls ++
            [Call.WriteHeader 500, Call.Write (errorsBody lib (errorText err))]⟩)
        | none =>
          match json.Marshal jlib (jsonMap r.1.1) with
          | (_, some err) => (.panicked err, s1)
          | (jsonBody, none) => (.returned () none, ⟨s1.world, s1.calls ++ [Call.Write jsonBody]⟩)
      | _ => (.panicked typeAssertionError, s)
    | _ => (.panicked typeAssertionError, s)

/-- Go `ShowHandler.ServeHTTP`, for the request path and the context of the request. -/
def ShowHandler.ServeHTTP (h : ShowHandler W) (lib : GoLibrary) (jlib : JSONLibrary)
    (path : String) (context : stack.Context) (s : Run W) : Outcome Unit × Run W :=
  let splitURL := strings.Split path "/"
  match indexSlice splitURL ((splitURL.length : Int) - 1) with
  | none => (.panicked boundsError, s)
  | some campaignTypeID =>
    match indexSlice splitURL ((splitURL.length : Int) - 3) with
    | none => (.panicked boundsError, s)
    | some senderID =>
      if senderID = "" then
        (.returned () none,
          ⟨s.world, s.calls ++ [Call.WriteHeader 400, Call.Write (errorsBody lib "missing sender id")]⟩)
      else if campaignTypeID = "" then
        (.returned () none,
          ⟨s.world, s.calls ++ [Call.HeaderSet "Location" ("/senders/" ++ senderID ++ "/campaign_types"),
            Call.WriteHeader 301]⟩)
      else h.serveChecked lib jlib senderID campaignTypeID context s

end campaigntypes

namespace fakes

/-- A JSON library for the examples: strings are written as `strconv.Quote` writes them, and
every stored `SendTo` decodes to the map of one user. -/
def jsonLibrary : JSONLibrary where
  encodeString := strconv.Quote (fun _ => true)
  unmarshalStringMap := fun _ => (some [("user", "user-380")], none)

/-- A message handler whose finder gives the canned answer; the world counts the errors
written. -/
def getHandler (found : messages.Message × Option GoError) : messages.GetHandler Nat where
  finder := fun _ _ w => (found, w)
  errorWriter := fun _ w => w + 1

/-- A campaign type handler whose collection gives the canned answer. -/
def showHandler (ret : campaigntypes.CampaignType × Option GoError) :
    campaigntypes.ShowHandler Nat where
  collection := ⟨fun _ _ _ _ w => (ret, w)⟩

/-- A request context as the middleware leaves it: a database and a client ID. -/
def context : stack.Context :=
  [("database", .database 1), ("client_id", .string "my-client")]

end fakes

/-! ## Quoting -/

namespace strconv

theorem appendEscapedRune_plain (table : Nat → Bool) (buf : String) (r : Char)
    (h : Plain table r) : appendEscapedRune table buf r = buf.push r := by
  obtain ⟨h1, h2, h3⟩ := h
  simp [appendEscapedRune, h1, h2, h3]

theorem foldl_appendEscapedRune_plain (table : Nat → Bool) (l : List Char) :
    ∀ buf : String, (∀ r ∈ l, Plain table r) →
      l.foldl (appendEscapedRune table) buf = buf ++ String.mk l := by
  induction l with
  | nil => intro buf _; apply String.ext; simp
  | cons r l ih =>
    intro buf h
    rw [List.foldl_cons, appendEscapedRune_plain table buf r (h r (List.mem_cons_self r l)),
      ih _ (fun x hx => h x (List.mem_cons_of_mem r hx))]
    apply String.ext
    simp

theorem Quote_plain (table : Nat → Bool) (s : String) (h : ∀ r ∈ s.toList, Plain table r) :
    Quote table s = "\"" ++ s ++ "\"" := by
  unfold Quote
  rw [foldl_appendEscapedRune_plain table s.toList _ h]
  apply String.ext
  simp

theorem appendEscapedRune_eq (table : Nat → Bool) (buf : String) (r : Char) :
    ∃ esc : String, appendEscapedRune table buf r = buf ++ esc ∧ 1 ≤ esc.length ∧
      (¬ Plain table r → 2 ≤ esc.length) := by
  unfold appendEscapedRune
  by_cases h1 : r = '"' ∨ r = '\\'
  · rw [if_pos h1]
    exact ⟨String.mk ['\\', r], by apply String.ext; simp, by show 1 ≤ 2; decide,
      fun _ => by show 2 ≤ 2; decide⟩
  rw [if_neg h1]
  by_cases h2 : unicode.IsPrint table r = true
  · rw [if_pos h2]
    refine ⟨String.mk [r], by apply String.ext; simp, by show 1 ≤ 1; decide, fun h => ?_⟩
    exact (h ⟨fun e => h1 (Or.inl e), fun e => h1 (Or.inr e), h2⟩).elim
  rw [if_neg h2]
  by_cases h3 : r.toNat = 0x07
  · rw [if_pos h3]; exact ⟨_, rfl, by decide, fun _ => by decide⟩
  rw [if_neg h3]
  by_cases h4 : r.toNat = 0x08
  · rw [if_pos h4]; exact ⟨_, rfl, by decide, fun _ => by decide⟩
  rw [if_neg h4]
  by_cases h5 : r.toNat = 0x0C
  · rw [if_pos h5]; exact ⟨_, rfl, by decide, fun _ => by decide⟩
  rw [if_neg h5]
  by_cases h6 : r.toNat = 0x0A
  · rw [if_pos h6]; exact ⟨_, rfl, by decide, fun _ => by decide⟩
  rw [if_neg h6]
  by_cases h7 : r.toNat = 0x0D
  · rw [if_pos h7]; exact ⟨_, rfl, by decide, fun _ => by decide⟩
  rw [if_neg h7]
  by_cases h8 : r.toNat = 0x09
  · rw [if_pos h8]; exact ⟨_, rfl, by decide, fun _ => by decide⟩
  rw [if_neg h8]
  by_cases h9 : r.toNat = 0x0B
  · rw [if_pos h9]; exact ⟨_, rfl, by decide, fun _ => by decide⟩
  rw [if_neg h9]
  by_cases h10 : r.toNat < 0x20 ∨ r.toNat = 0x7F
  · rw [if_pos h10]
    exact ⟨String.mk ['\\', 'x', lowerhex (r.toNat >>> 4), lowerhex r.toNat],
      by apply String.ext; simp, by show 1 ≤ 4; decide, fun _ => by show 2 ≤ 4; decide⟩
  rw [if_neg h10]
  by_cases h11 : r.toNat < 0x10000
  · rw [if_pos h11]
    exact ⟨"\\u" ++ String.mk (hexDigits r.toNat 4), by apply String.ext; simp,
      by show 1 ≤ 6; decide, fun _ => by show 2 ≤ 6; decide⟩
  rw [if_neg h11]
  exact ⟨"\\U" ++ String.mk (hexDigits r.toNat 8), by apply String.ext; simp,
    by show 1 ≤ 10; decide, fun _ => by show 2 ≤ 10; decide⟩

theorem length_foldl_appendEscapedRune (table : Nat → Bool) (l : List Char) :
    ∀ buf : String, buf.length + l.length ≤ (l.foldl (appendEscapedRune table) buf).length := by
  induction l with
  | nil => intro buf; simp
  | cons r l ih =>
    intro buf
    obtain ⟨esc, h1, h2, _⟩ := appendEscapedRune_eq table buf r
    have h3 := ih (appendEscapedRune table buf r)
    rw [h1, String.length_append] at h3
    simp only [List.foldl_cons, List.length_cons]
    rw [h1]
    omega

theorem length_foldl_of_not_plain (table : Nat → Bool) (l : List Char) :
    ∀ buf : String, (∃ r ∈ l, ¬ Plain table r) →
      buf.length + l.length + 1 ≤ (l.foldl (appendEscapedRune table) buf).length := by
  induction l with
  | nil => intro buf h; simp at h
  | cons r l ih =>
    intro buf h
    obtain ⟨esc, h1, h2, h3⟩ := appendEscapedRune_eq table buf r
    simp only [List.foldl_cons, List.length_cons]
    by_cases hr : Plain table r
    · have hl : ∃ x ∈ l, ¬ Plain table x := by
        obtain ⟨x, hx, hnx⟩ := h
        rcases List.mem_cons.mp hx with rfl | hx
        · exact (hnx hr).elim
        · exact ⟨x, hx, hnx⟩
      have h4 := ih (appendEscapedRune table buf r) hl
      rw [h1, String.length_append] at h4
      rw [h1]
      omega
    · have h4 := length_foldl_appendEscapedRune table l (appendEscapedRune table buf r)
      have h5 := h3 hr
      rw [h1, String.length_append] at h4
      rw [h1]
      omega

theorem Quote_eq_iff_plain (table : Nat → Bool) (s : String) :
    Quote table s = "\"" ++ s ++ "\"" ↔ ∀ r ∈ s.toList, Plain table r := by
  constructor
  · intro h
    by_contra hn
    push_neg at hn
    have h1 := length_foldl_of_not_plain table s.toList "\"" hn
    have h2 := congrArg String.length h
    unfold Quote at h2
    rw [String.length_push, String.length_append, String.length_append] at h2
    have e1 : ("\"" : String).length = 1 := rfl
    have e2 : s.toList.length = s.length := rfl
    rw [e1] at h1 h2
    rw [e2] at h1
    omega
  · exact Quote_plain table s

end strconv

namespace collections

namespace CampaignsCollection

variable {W : Type}

/-! ## `checkForExistence` -/

theorem checkForExistence_finder (c : CampaignsCollection W) (lib : GoLibrary) (f : Finder)
    (guid : String) (s : Run W) :
    c.checkForExistence lib f.audience guid s = c.callExists f guid s := by
  cases f <;> simp [checkForExistence, Finder.audience]

/-- C8, as amended.  `checkForExistence(audience, guid)` is: for `"user"`, `"space"` and
`"org"` the unmodified answer of the user, space and org finder, called once with `guid`;
for `"email"` the answer `(true, nil)` with no call; for every other audience the answer
`(false, error)` with no call, where the message is `The `, the audience as `%q` quotes it,
then ` audience is not valid`.  The quoted audience is the audience between two double
quotes exactly when all its runes are printable and none is a double quote or a backslash,
as is the case for the empty string. -/
theorem checkForExistence_spec (c : CampaignsCollection W) (lib : GoLibrary)
    (audience guid : String) (s : Run W) :
    (∀ f : Finder, audience = f.audience →
      c.checkForExistence lib audience guid s =
        (((c.finder f).Exists guid s.world).1,
          ⟨((c.finder f).Exists guid s.world).2,
            s.calls ++ [Call.Exists f guid ((c.finder f).Exists guid s.world).1.1
              ((c.finder f).Exists guid s.world).1.2]⟩)) ∧
    (audience = "email" → c.checkForExistence lib audience guid s = ((true, none), s)) ∧
    (audience ≠ "user" ∧ audience ≠ "space" ∧ audience ≠ "org" ∧ audience ≠ "email" →
      c.checkForExistence lib audience guid s =
        ((false, some (.errorString
          ("The " ++ strconv.Quote lib.printTable audience ++ " audience is not valid"))), s)) ∧
    (strconv.Quote lib.printTable audience = "\"" ++ audience ++ "\"" ↔
      ∀ r ∈ audience.toList, strconv.Plain lib.printTable r) ∧
    strconv.Quote lib.printTable "" = "\"\"" := by
  refine ⟨?_, ?_, ?_, ?_, ?_⟩
  · intro f hf
    rw [hf, checkForExistence_finder]
    rfl
  · intro h
    simp [checkForExistence, h]
  · rintro ⟨h1, h2, h3, h4⟩
    simp [checkForExistence, h1, h2, h3, h4]
  · exact strconv.Quote_eq_iff_plain lib.printTable audience
  · rfl

/-- C8, the claim as written fails: for the audience `a"b` the error message is
`The "a\"b" audience is not valid`, with the quote escaped, and not the audience between
two double quotes. -/
theorem checkForExistence_message_counterexample :
    ((fakes.collection {}).checkForExistence fakes.library "a\"b" "some-guid" fakes.start).1
        = (false, some (.errorString "The \"a\\\"b\" audience is not valid")) ∧
      ((fakes.collection {}).checkForExistence fakes.library "a\"b" "some-guid" fakes.start).1
        ≠ (false, some (.errorString ("The \"" ++ "a\"b" ++ "\" audience is not valid"))) := by
  decide

/-! ## `Create` -/

theorem validate_eq (c : CampaignsCollection W) (lib : GoLibrary) (conn : ConnectionInterface)
    (campaign : Campaign) (can : Bool) (s : Run W) :
    c.validate lib conn campaign can s =
      match c.existenceStep lib campaign s with
      | ((_, some err), s1) => (.error (.UnknownError err), s1)
      | ((false, none), s1) =>
        (.error (.NotFoundError (.errorString
          ("The " ++ campaign.SendTo.rangeLastKey ++ " " ++
            strconv.Quote lib.printTable (campaign.SendTo.index campaign.SendTo.rangeLastKey)
            ++ " cannot be found"))), s1)
      | ((true, none), s1) =>
        match c.callCampaignTypesGet conn campaign.CampaignTypeID s1 with
        | ((_, some err), s2) => (.error (wrapGetError err), s2)
        | ((campaignType, none), s2) =>
          if campaignType.Critical && !can then
            (.error (.PermissionsError
              (.errorString "Scope critical_notifications.write is required")), s2)
          else
            match c.callTemplatesGet conn (resolveTemplate campaign campaignType).TemplateID s2 with
            | ((_, some err), s3) => (.error (wrapGetError err), s3)
            | ((_, none), s3) => (.ok (resolveTemplate campaign campaignType), s3) := rfl

theorem callExists_calls (c : CampaignsCollection W) (f : Finder) (guid : String) (s : Run W) :
    (c.callExists f guid s).2.calls =
      s.calls ++ [Call.Exists f guid (c.callExists f guid s).1.1 (c.callExists f guid s).1.2] :=
  rfl

theorem checkForExistence_calls (c : CampaignsCollection W) (lib : GoLibrary)
    (audience guid : String) (s : Run W) :
    (c.checkForExistence lib audience guid s).2.calls = s.calls ∨
      ∃ f, audience = f.audience ∧ (c.checkForExistence lib audience guid s).2.calls =
        s.calls ++ [Call.Exists f guid (c.checkForExistence lib audience guid s).1.1
          (c.checkForExistence lib audience guid s).1.2] := by
  by_cases h1 : audience = "user"
  · exact Or.inr ⟨.user, h1, by rw [h1]; rfl⟩
  by_cases h2 : audience = "space"
  · exact Or.inr ⟨.space, h2, by rw [h2]; rfl⟩
  by_cases h3 : audience = "org"
  · exact Or.inr ⟨.org, h3, by rw [h3]; rfl⟩
  left
  by_cases h4 : audience = "email" <;> simp [checkForExistence, h1, h2, h3, h4]

theorem existenceStep_calls (c : CampaignsCollection W) (lib : GoLibrary) (campaign : Campaign)
    (w : W) :
    ∀ call ∈ (c.existenceStep lib campaign ⟨w, []⟩).2.calls, call.isExists = true := by
  intro call hcall
  unfold existenceStep at hcall
  rcases checkForExistence_calls c lib campaign.SendTo.rangeLastKey
    (campaign.SendTo.index campaign.SendTo.rangeLastKey) ⟨w, []⟩ with h | ⟨f, _, h⟩
  · rw [h] at hcall
    simp at hcall
  · rw [h] at hcall
    simp at hcall
    rw [hcall]
    rfl

theorem callCampaignTypesGet_calls (c : CampaignsCollection W) (conn : ConnectionInterface)
    (id : String) (s s1 : Run W) (ct : models.CampaignType) (oe : Option GoError)
    (h : c.callCampaignTypesGet conn id s = ((ct, oe), s1)) :
    s1.calls = s.calls ++ [Call.campaignTypesGet conn id ct oe] := by
  unfold callCampaignTypesGet at h
  simp only [Prod.mk.injEq] at h
  obtain ⟨h1, h3⟩ := h
  rw [← h3]
  simp [h1]

theorem callTemplatesGet_calls (c : CampaignsCollection W) (conn : ConnectionInterface)
    (id : String) (s s1 : Run W) (tpl : models.Template) (oe : Option GoError)
    (h : c.callTemplatesGet conn id s = ((tpl, oe), s1)) :
    s1.calls = s.calls ++ [Call.templatesGet conn id tpl oe] := by
  unfold callTemplatesGet at h
  simp only [Prod.mk.injEq] at h
  obtain ⟨h1, h3⟩ := h
  rw [← h3]
  simp [h1]

theorem callCampaignsSet_calls (c : CampaignsCollection W) (conn : ConnectionInterface)
    (m : models.Campaign) (s s1 : Run W) (saved : models.Campaign) (oe : Option GoError)
    (h : c.callCampaignsSet conn m s = ((saved, oe), s1)) :
    s1.calls = s.calls ++ [Call.campaignsSet conn m saved oe] := by
  unfold callCampaignsSet at h
  simp only [Prod.mk.injEq] at h
  obtain ⟨h1, h3⟩ := h
  rw [← h3]
  simp [h1]

theorem callEnqueue_calls (c : CampaignsCollection W) (campaign : Campaign) (jobType : String)
    (s s1 : Run W) (oe : Option GoError)
    (h : c.callEnqueue campaign jobType s = (oe, s1)) :
    s1.calls = s.calls ++ [Call.Enqueue campaign jobType oe] := by
  unfold callEnqueue at h
  simp only [Prod.mk.injEq] at h
  obtain ⟨h1, h3⟩ := h
  rw [← h3, ← h1]

theorem wrapGetError_ne_permissions (err inner : GoError) :
    wrapGetError err ≠ .PermissionsError inner := by
  cases err <;> simp [wrapGetError]

theorem wrapGetError_ne_unknown (err inner : GoError) :
    wrapGetError err ≠ .UnknownError inner := by
  cases err <;> simp [wrapGetError]

/-- The six ways through the head of `Create`, each with the collaborator answers that
select it. -/
theorem validate_cases (c : CampaignsCollection W) (lib : GoLibrary)
    (conn : ConnectionInterface) (campaign : Campaign) (can : Bool) (s : Run W) :
    (∃ b e s1, c.existenceStep lib campaign s = ((b, some e), s1) ∧
      c.validate lib conn campaign can s = (.error (.UnknownError e), s1)) ∨
    (∃ s1, c.existenceStep lib campaign s = ((false, none), s1) ∧
      c.validate lib conn campaign can s =
        (.error (.NotFoundError (.errorString
          ("The " ++ campaign.SendTo.rangeLastKey ++ " " ++
            strconv.Quote lib.printTable (campaign.SendTo.index campaign.SendTo.rangeLastKey)
            ++ " cannot be found"))), s1)) ∨
    (∃ s1 ct e s2, c.existenceStep lib campaign s = ((true, none), s1) ∧
      c.callCampaignTypesGet conn campaign.CampaignTypeID s1 = ((ct, some e), s2) ∧
      c.validate lib conn campaign can s = (.error (wrapGetError e), s2)) ∨
    (∃ s1 ct s2, c.existenceStep lib campaign s = ((true, none), s1) ∧
      c.callCampaignTypesGet conn campaign.CampaignTypeID s1 = ((ct, none), s2) ∧
      ct.Critical = true ∧ can = false ∧
      c.validate lib conn campaign can s =
        (.error (.PermissionsError
          (.errorString "Scope critical_notifications.write is required")), s2)) ∨
    (∃ s1 ct s2 tpl e s3, c.existenceStep lib campaign s = ((true, none), s1) ∧
      c.callCampaignTypesGet conn campaign.CampaignTypeID s1 = ((ct, none), s2) ∧
      (ct.Critical = false ∨ can = true) ∧
      c.callTemplatesGet conn (resolveTemplate campaign ct).TemplateID s2 = ((tpl, some e), s3) ∧
      c.validate lib conn campaign can s = (.error (wrapGetError e), s3)) ∨
    (∃ s1 ct s2 tpl s3, c.existenceStep lib campaign s = ((true, none), s1) ∧
      c.callCampaignTypesGet conn campaign.CampaignTypeID s1 = ((ct, none), s2) ∧
      (ct.Critical = false ∨ can = true) ∧
      c.callTemplatesGet conn (resolveTemplate campaign ct).TemplateID s2 = ((tpl, none), s3) ∧
      c.validate lib conn campaign can s = (.ok (resolveTemplate campaign ct), s3)) := by
  rcases hE : c.existenceStep lib campaign s with ⟨⟨b, oe⟩, s1⟩
  cases oe with
  | some e =>
    left
    exact ⟨b, e, s1, rfl, by rw [validate_eq, hE]; cases b <;> rfl⟩
  | none =>
    cases b with
    | false =>
      right; left
      exact ⟨s1, rfl, by rw [validate_eq, hE]⟩
    | true =>
      rcases hT : c.callCampaignTypesGet conn campaign.CampaignTypeID s1 with ⟨⟨ct, oe2⟩, s2⟩
      cases oe2 with
      | some e =>
        right; right; left
        exact ⟨s1, ct, e, s2, rfl, hT, by rw [validate_eq, hE]; simp only []; rw [hT]⟩
      | none =>
        by_cases hcrit : ct.Critical = true ∧ can = false
        · right; right; right; left
          refine ⟨s1, ct, s2, rfl, hT, hcrit.1, hcrit.2, ?_⟩
          rw [validate_eq, hE]
          simp only []
          rw [hT]
          simp [hcrit.1, hcrit.2]
        · have hcrit2 : ct.Critical = false ∨ can = true := by
            cases h1 : ct.Critical <;> cases h2 : can <;> simp_all
          have hif : (ct.Critical && !can) = false := by
            rcases hcrit2 with h | h <;> simp [h]
          rcases hG : c.callTemplatesGet conn (resolveTemplate campaign ct).TemplateID s2
            with ⟨⟨tpl, oe3⟩, s3⟩
          cases oe3 with
          | some e =>
            right; right; right; right; left
            refine ⟨s1, ct, s2, tpl, e, s3, rfl, hT, hcrit2, hG, ?_⟩
            rw [validate_eq, hE]
            simp only []
            rw [hT]
            simp only [hif]
            rw [hG]
            rfl
          | none =>
            right; right; right; right; right
            refine ⟨s1, ct, s2, tpl, s3, rfl, hT, hcrit2, hG, ?_⟩
            rw [validate_eq, hE]
            simp only []
            rw [hT]
            simp only [hif]
            rw [hG]
            rfl

/-- The four ways through the tail of `Create`. -/
theorem persistAndEnqueue_cases (c : CampaignsCollection W) (lib : GoLibrary)
    (conn : ConnectionInterface) (campaign : Campaign) (s : Run W) :
    (∃ str e, lib.jsonMarshal campaign.SendTo = (str, some e) ∧
      c.persistAndEnqueue lib conn campaign s = (.panicked e, s)) ∨
    (∃ sendTo m e s1, lib.jsonMarshal campaign.SendTo = (sendTo, none) ∧
      c.callCampaignsSet conn (setArgument sendTo campaign) s = ((m, some e), s1) ∧
      c.persistAndEnqueue lib conn campaign s = (.panicked e, s1)) ∨
    (∃ sendTo saved s1 e s2, lib.jsonMarshal campaign.SendTo = (sendTo, none) ∧
      c.callCampaignsSet conn (setArgument sendTo campaign) s = ((saved, none), s1) ∧
      c.callEnqueue { campaign with ID := saved.ID } "campaign" s1 = (some e, s2) ∧
      c.persistAndEnqueue lib conn campaign s =
        (.returned {} (some (.PersistenceError e)), s2)) ∨
    (∃ sendTo saved s1 s2, lib.jsonMarshal campaign.SendTo = (sendTo, none) ∧
      c.callCampaignsSet conn (setArgument sendTo campaign) s = ((saved, none), s1) ∧
      c.callEnqueue { campaign with ID := saved.ID } "campaign" s1 = (none, s2) ∧
      c.persistAndEnqueue lib conn campaign s =
        (.returned { campaign with ID := saved.ID } none, s2)) := by
  rcases hM : lib.jsonMarshal campaign.SendTo with ⟨str, oe⟩
  cases oe with
  | some e =>
    left
    exact ⟨str, e, rfl, by unfold persistAndEnqueue; rw [hM]⟩
  | none =>
    rcases hS : c.callCampaignsSet conn (setArgument str campaign) s with ⟨⟨saved, oe2⟩, s1⟩
    cases oe2 with
    | some e =>
      right; left
      exact ⟨str, saved, e, s1, rfl, hS, by unfold persistAndEnqueue; rw [hM]; simp only []; rw [hS]⟩
    | none =>
      rcases hQ : c.callEnqueue { campaign with ID := saved.ID } "campaign" s1 with ⟨oe3, s2⟩
      cases oe3 with
      | some e =>
        right; right; left
        refine ⟨str, saved, s1, e, s2, rfl, hS, hQ, ?_⟩
        unfold persistAndEnqueue
        rw [hM]
        simp only []
        rw [hS]
        simp only []
        rw [hQ]
      | none =>
        right; right; right
        refine ⟨str, saved, s1, s2, rfl, hS, hQ, ?_⟩
        unfold persistAndEnqueue
        rw [hM]
        simp only []
        rw [hS]
        simp only []
        rw [hQ]

theorem Create_of_error (c : CampaignsCollection W) (lib : GoLibrary)
    (conn : ConnectionInterface) (campaign : Campaign) (can : Bool) (s s1 : Run W)
    (err : GoError) (h : c.validate lib conn campaign can s = (.error err, s1)) :
    c.Create lib conn campaign can s = (.returned {} (some err), s1) := by
  unfold Create
  rw [h]

theorem Create_of_ok (c : CampaignsCollection W) (lib : GoLibrary)
    (conn : ConnectionInterface) (campaign campaign1 : Campaign) (can : Bool) (s s1 : Run W)
    (h : c.validate lib conn campaign can s = (.ok campaign1, s1)) :
    c.Create lib conn campaign can s = c.persistAndEnqueue lib conn campaign1 s1 := by
  unfold Create
  rw [h]

theorem campaignTypeStep_eq (c : CampaignsCollection W) (lib : GoLibrary)
    (conn : ConnectionInterface) (campaign : Campaign) (s s1 s2 : Run W)
    (a : Bool × Option GoError) (t : models.CampaignType × Option GoError)
    (hE : c.existenceStep lib campaign s = (a, s1))
    (hT : c.callCampaignTypesGet conn campaign.CampaignTypeID s1 = (t, s2)) :
    (c.campaignTypeStep lib conn campaign s).1 = t := by
  unfold campaignTypeStep
  rw [hE]
  simp only []
  rw [hT]

/-- Every run of `Create` from an empty transcript: its outcome and its transcript, with
`ct` the campaign type that the lookup answers.  `pre` holds the finder call, if any. -/
theorem Create_runs (c : CampaignsCollection W) (lib : GoLibrary)
    (conn : ConnectionInterface) (campaign : Campaign) (can : Bool) (w : W) :
    ∃ pre : List Call, (∀ call ∈ pre, call.isExists = true) ∧
      ((∃ e, (c.Create lib conn campaign can ⟨w, []⟩).1 = .returned {} (some (.UnknownError e)) ∧
          (c.Create lib conn campaign can ⟨w, []⟩).2.calls = pre) ∨
        (∃ e, (c.Create lib conn campaign can ⟨w, []⟩).1 = .returned {} (some (.NotFoundError e)) ∧
          (c.Create lib conn campaign can ⟨w, []⟩).2.calls = pre) ∨
        (∃ ct e, (c.campaignTypeStep lib conn campaign ⟨w, []⟩).1 = (ct, some e) ∧
          (c.Create lib conn campaign can ⟨w, []⟩).1 = .returned {} (some (wrapGetError e)) ∧
          (c.Create lib conn campaign can ⟨w, []⟩).2.calls =
            pre ++ [Call.campaignTypesGet conn campaign.CampaignTypeID ct (some e)]) ∨
        (∃ ct, (c.campaignTypeStep lib conn campaign ⟨w, []⟩).1 = (ct, none) ∧
          ct.Critical = true ∧ can = false ∧
          (c.Create lib conn campaign can ⟨w, []⟩).1 = .returned {} (some (.PermissionsError
            (.errorString "Scope critical_notifications.write is required"))) ∧
          (c.Create lib conn campaign can ⟨w, []⟩).2.calls =
            pre ++ [Call.campaignTypesGet conn campaign.CampaignTypeID ct none]) ∨
        (∃ ct tpl e, (c.campaignTypeStep lib conn campaign ⟨w, []⟩).1 = (ct, none) ∧
          (ct.Critical = false ∨ can = true) ∧
          (c.Create lib conn campaign can ⟨w, []⟩).1 = .returned {} (some (wrapGetError e)) ∧
          (c.Create lib conn campaign can ⟨w, []⟩).2.calls =
            pre ++ [Call.campaignTypesGet conn campaign.CampaignTypeID ct none,
              Call.templatesGet conn (resolveTemplate campaign ct).TemplateID tpl (some e)]) ∨
        (∃ ct tpl str e, (c.campaignTypeStep lib conn campaign ⟨w, []⟩).1 = (ct, none) ∧
          (ct.Critical = false ∨ can = true) ∧
          lib.jsonMarshal campaign.SendTo = (str, some e) ∧
          (c.Create lib conn campaign can ⟨w, []⟩).1 = .panicked e ∧
          (c.Create lib conn campaign can ⟨w, []⟩).2.calls =
            pre ++ [Call.campaignTypesGet conn campaign.CampaignTypeID ct none,
              Call.templatesGet conn (resolveTemplate campaign ct).TemplateID tpl none]) ∨
        (∃ ct tpl sendTo m e, (c.campaignTypeStep lib conn campaign ⟨w, []⟩).1 = (ct, none) ∧
          (ct.Critical = false ∨ can = true) ∧
          lib.jsonMarshal campaign.SendTo = (sendTo, none) ∧
          (c.Create lib conn campaign can ⟨w, []⟩).1 = .panicked e ∧
          (c.Create lib conn campaign can ⟨w, []⟩).2.calls =
            pre ++ [Call.campaignTypesGet conn campaign.CampaignTypeID ct none,
              Call.templatesGet conn (resolveTemplate campaign ct).TemplateID tpl none,
              Call.campaignsSet conn (setArgument sendTo (resolveTemplate campaign ct)) m
                (some e)]) ∨
        (∃ ct tpl sendTo saved e, (c.campaignTypeStep lib conn campaign ⟨w, []⟩).1 = (ct, none) ∧
          (ct.Critical = false ∨ can = true) ∧
          lib.jsonMarshal campaign.SendTo = (sendTo, none) ∧
          (c.Create lib conn campaign can ⟨w, []⟩).1 =
            .returned {} (some (.PersistenceError e)) ∧
          (c.Create lib conn campaign can ⟨w, []⟩).2.calls =
            pre ++ [Call.campaignTypesGet conn campaign.CampaignTypeID ct none,
              Call.templatesGet conn (resolveTemplate campaign ct).TemplateID tpl none,
              Call.campaignsSet conn (setArgument sendTo (resolveTemplate campaign ct)) saved none,
              Call.Enqueue { resolveTemplate campaign ct with ID := saved.ID } "campaign"
                (some e)]) ∨
        (∃ ct tpl sendTo saved, (c.campaignTypeStep lib conn campaign ⟨w, []⟩).1 = (ct, none) ∧
          (ct.Critical = false ∨ can = true) ∧
          lib.jsonMarshal campaign.SendTo = (sendTo, none) ∧
          (c.Create lib conn campaign can ⟨w, []⟩).1 =
            .returned { resolveTemplate campaign ct with ID := saved.ID } none ∧
          (c.Create lib conn campaign can ⟨w, []⟩).2.calls =
            pre ++ [Call.campaignTypesGet conn campaign.CampaignTypeID ct none,
              Call.templatesGet conn (resolveTemplate campaign ct).TemplateID tpl none,
              Call.campaignsSet conn (setArgument sendTo (resolveTemplate campaign ct)) saved none,
              Call.Enqueue { resolveTemplate campaign ct with ID := saved.ID } "campaign"
                none])) := by
  have hcalls := existenceStep_calls c lib campaign w
  have hSendTo : ∀ ct, (resolveTemplate campaign ct).SendTo = campaign.SendTo := by
    intro ct
    unfold resolveTemplate
    split <;> rfl
  rcases validate_cases c lib conn campaign can ⟨w, []⟩ with
    ⟨b, e, s1, hE, hV⟩ | ⟨s1, hE, hV⟩ | ⟨s1, ct, e, s2, hE, hT, hV⟩ |
    ⟨s1, ct, s2, hE, hT, hc, hcan, hV⟩ | ⟨s1, ct, s2, tpl, e, s3, hE, hT, hc, hG, hV⟩ |
    ⟨s1, ct, s2, tpl, s3, hE, hT, hc, hG, hV⟩
  all_goals rw [hE] at hcalls
  all_goals refine ⟨s1.calls, hcalls, ?_⟩
  · rw [Create_of_error c lib conn campaign can _ _ _ hV]
    exact Or.inl ⟨e, rfl, rfl⟩
  · rw [Create_of_error c lib conn campaign can _ _ _ hV]
    exact Or.inr (Or.inl ⟨_, rfl, rfl⟩)
  · rw [Create_of_error c lib conn campaign can _ _ _ hV]
    exact Or.inr (Or.inr (Or.inl ⟨ct, e, campaignTypeStep_eq c lib conn campaign _ _ _ _ _ hE hT,
      rfl, callCampaignTypesGet_calls c conn _ _ _ _ _ hT⟩))
  · rw [Create_of_error c lib conn campaign can _ _ _ hV]
    exact Or.inr (Or.inr (Or.inr (Or.inl ⟨ct,
      campaignTypeStep_eq c lib conn campaign _ _ _ _ _ hE hT, hc, hcan,
      rfl, callCampaignTypesGet_calls c conn _ _ _ _ _ hT⟩)))
  · rw [Create_of_error c lib conn campaign can _ _ _ hV]
    refine Or.inr (Or.inr (Or.inr (Or.inr (Or.inl ⟨ct, tpl, e,
      campaignTypeStep_eq c lib conn campaign _ _ _ _ _ hE hT, hc, rfl, ?_⟩))))
    simp only []
    rw [callTemplatesGet_calls c conn _ _ _ _ _ hG,
      callCampaignTypesGet_calls c conn _ _ _ _ _ hT]
    simp
  · have hs3 : s3.calls = s1.calls ++
        [Call.campaignTypesGet conn campaign.CampaignTypeID ct none,
          Call.templatesGet conn (resolveTemplate campaign ct).TemplateID tpl none] := by
      rw [callTemplatesGet_calls c conn _ _ _ _ _ hG,
        callCampaignTypesGet_calls c conn _ _ _ _ _ hT]
      simp
    have hct := campaignTypeStep_eq c lib conn campaign _ _ _ _ _ hE hT
    rw [Create_of_ok c lib conn campaign _ can _ _ hV]
    rcases persistAndEnqueue_cases c lib conn (resolveTemplate campaign ct) s3 with
      ⟨str, e, hM, hP⟩ | ⟨sendTo, m, e, s4, hM, hS, hP⟩ |
      ⟨sendTo, saved, s4, e, s5, hM, hS, hQ, hP⟩ | ⟨sendTo, saved, s4, s5, hM, hS, hQ, hP⟩
    all_goals rw [hSendTo] at hM
    all_goals rw [hP]
    · exact Or.inr (Or.inr (Or.inr (Or.inr (Or.inr (Or.inl
        ⟨ct, tpl, str, e, hct, hc, hM, rfl, hs3⟩)))))
    · refine Or.inr (Or.inr (Or.inr (Or.inr (Or.inr (Or.inr (Or.inl
        ⟨ct, tpl, sendTo, m, e, hct, hc, hM, rfl, ?_⟩))))))
      simp only []
      rw [callCampaignsSet_calls c conn _ _ _ _ _ hS, hs3]
      simp
    · refine Or.inr (Or.inr (Or.inr (Or.inr (Or.inr (Or.inr (Or.inr (Or.inl
        ⟨ct, tpl, sendTo, saved, e, hct, hc, hM, rfl, ?_⟩)))))))
      simp only []
      rw [callEnqueue_calls c _ _ _ _ _ hQ, callCampaignsSet_calls c conn _ _ _ _ _ hS, hs3]
      simp
    · refine Or.inr (Or.inr (Or.inr (Or.inr (Or.inr (Or.inr (Or.inr (Or.inr
        ⟨ct, tpl, sendTo, saved, hct, hc, hM, rfl, ?_⟩)))))))
      simp only []
      rw [callEnqueue_calls c _ _ _ _ _ hQ, callCampaignsSet_calls c conn _ _ _ _ _ hS, hs3]
      simp

/-- C1.  `Create` returns a `PermissionsError` if and only if the existence check answers
`(true, nil)`, the campaign type lookup answers without error, the campaign type is
critical and `canSendCritical` is false.  In that case the result is `Campaign{}` with the
error `Scope critical_notifications.write is required`, and the run has called neither the
template repository, nor `campaignsRepo.Set`, nor the enqueuer. -/
theorem Create_permissions_iff (c : CampaignsCollection W) (lib : GoLibrary)
    (conn : ConnectionInterface) (campaign : Campaign) (can : Bool) (w : W) :
    ((∃ v err, (c.Create lib conn campaign can ⟨w, []⟩).1 =
          .returned v (some (.PermissionsError err))) ↔
      ((c.existenceStep lib campaign ⟨w, []⟩).1 = (true, none) ∧
        (c.campaignTypeStep lib conn campaign ⟨w, []⟩).1.2 = none ∧
        (c.campaignTypeStep lib conn campaign ⟨w, []⟩).1.1.Critical = true ∧ can = false)) ∧
    ((∃ v err, (c.Create lib conn campaign can ⟨w, []⟩).1 =
          .returned v (some (.PermissionsError err))) →
      (c.Create lib conn campaign can ⟨w, []⟩).1 =
          .returned {} (some (.PermissionsError
            (.errorString "Scope critical_notifications.write is required"))) ∧
        ∀ call ∈ (c.Create lib conn campaign can ⟨w, []⟩).2.calls,
          call.isTemplatesGet = false ∧ call.isCampaignsSet = false ∧
            call.isEnqueue = false) := by
  have hcalls := existenceStep_calls c lib campaign w
  unfold campaignTypeStep
  rcases validate_cases c lib conn campaign can ⟨w, []⟩ with
    ⟨b, e, s1, hE, hV⟩ | ⟨s1, hE, hV⟩ | ⟨s1, ct, e, s2, hE, hT, hV⟩ |
    ⟨s1, ct, s2, hE, hT, hc, hcan, hV⟩ | ⟨s1, ct, s2, tpl, e, s3, hE, hT, hc, hG, hV⟩ |
    ⟨s1, ct, s2, tpl, s3, hE, hT, hc, hG, hV⟩
  · rw [Create_of_error c lib conn campaign can _ _ _ hV, hE]
    simp
  · rw [Create_of_error c lib conn campaign can _ _ _ hV, hE]
    simp
  · rw [Create_of_error c lib conn campaign can _ _ _ hV, hE]
    simp only []
    rw [hT]
    simp [wrapGetError_ne_permissions]
  · rw [Create_of_error c lib conn campaign can _ _ _ hV, hE]
    simp only []
    rw [hT]
    rw [hE] at hcalls
    have hs2 := callCampaignTypesGet_calls c conn _ _ _ _ _ hT
    refine ⟨by simp [hc, hcan], fun _ => ⟨by simp, ?_⟩⟩
    intro call hcall
    simp only [hs2, List.mem_append, List.mem_singleton] at hcall
    rcases hcall with h | h
    · have := hcalls call h
      cases call <;> simp_all [Call.isExists, Call.isTemplatesGet, Call.isCampaignsSet,
        Call.isEnqueue]
    · rw [h]
      exact ⟨rfl, rfl, rfl⟩
  · rw [Create_of_error c lib conn campaign can _ _ _ hV, hE]
    simp only []
    rw [hT]
    have hno : ¬ (ct.Critical = true ∧ can = false) := by
      rcases hc with h | h <;> simp [h]
    simp [wrapGetError_ne_permissions, hno]
  · rw [Create_of_ok c lib conn campaign _ can _ _ hV, hE]
    simp only []
    rw [hT]
    have hno : ¬ (ct.Critical = true ∧ can = false) := by
      rcases hc with h | h <;> simp [h]
    rcases persistAndEnqueue_cases c lib conn (resolveTemplate campaign ct) s3 with
      ⟨str, e, _, hP⟩ | ⟨sendTo, m, e, s4, _, _, hP⟩ | ⟨sendTo, saved, s4, e, s5, _, _, _, hP⟩ |
      ⟨sendTo, saved, s4, s5, _, _, _, hP⟩ <;>
    · rw [hP]
      simp [hno]

/-- C5.  Whenever `Create` returns an `UnknownError`, a `NotFoundError` or a
`PermissionsError`, the run has called neither `campaignsRepo.Set` nor `enqueuer.Enqueue`. -/
theorem Create_validation_error_not_queued (c : CampaignsCollection W) (lib : GoLibrary)
    (conn : ConnectionInterface) (campaign : Campaign) (can : Bool) (w : W)
    (v : Campaign) (err inner : GoError)
    (hret : (c.Create lib conn campaign can ⟨w, []⟩).1 = .returned v (some err))
    (hclass : err = .UnknownError inner ∨ err = .NotFoundError inner ∨
      err = .PermissionsError inner) :
    ∀ call ∈ (c.Create lib conn campaign can ⟨w, []⟩).2.calls,
      call.isCampaignsSet = false ∧ call.isEnqueue = false := by
  have hpre' : ∀ pre : List Call, (∀ call ∈ pre, call.isExists = true) →
      ∀ call ∈ pre, call.isCampaignsSet = false ∧ call.isEnqueue = false := by
    intro pre hpre call hcall
    have := hpre call hcall
    cases call <;> simp_all [Call.isExists, Call.isCampaignsSet, Call.isEnqueue]
  obtain ⟨pre, hpre, hcases⟩ := Create_runs c lib conn campaign can w
  have hpre2 := hpre' pre hpre
  intro call hcall
  rcases hcases with ⟨e, h1, h2⟩ | ⟨e, h1, h2⟩ | ⟨ct, e, _, h1, h2⟩ | ⟨ct, _, _, _, h1, h2⟩ |
    ⟨ct, tpl, e, _, _, h1, h2⟩ | ⟨ct, tpl, str, e, _, _, _, h1, h2⟩ |
    ⟨ct, tpl, sendTo, m, e, _, _, _, h1, h2⟩ | ⟨ct, tpl, sendTo, saved, e, _, _, _, h1, h2⟩ |
    ⟨ct, tpl, sendTo, saved, _, _, _, h1, h2⟩
  all_goals rw [h2] at hcall
  all_goals rw [h1] at hret
  · exact hpre2 call hcall
  · exact hpre2 call hcall
  · simp only [List.mem_append, List.mem_singleton] at hcall
    rcases hcall with h | h
    · exact hpre2 call h
    · rw [h]; exact ⟨rfl, rfl⟩
  · simp only [List.mem_append, List.mem_singleton] at hcall
    rcases hcall with h | h
    · exact hpre2 call h
    · rw [h]; exact ⟨rfl, rfl⟩
  · simp only [List.mem_append, List.mem_cons, List.mem_singleton, List.not_mem_nil,
      or_false] at hcall
    rcases hcall with h | h | h
    · exact hpre2 call h
    · rw [h]; exact ⟨rfl, rfl⟩
    · rw [h]; exact ⟨rfl, rfl⟩
  · simp at hret
  · simp at hret
  · simp only [Outcome.returned.injEq, Option.some.injEq] at hret
    rcases hclass with h | h | h <;> rw [h] at hret <;> simp at hret
  · simp at hret

theorem resolveTemplate_TemplateID (campaign : Campaign) (ct : models.CampaignType) :
    (resolveTemplate campaign ct).TemplateID =
      if campaign.TemplateID = "" then ct.TemplateID else campaign.TemplateID := by
  unfold resolveTemplate
  split <;> rfl

theorem not_isExists_of_mem (pre : List Call) (hpre : ∀ call ∈ pre, call.isExists = true)
    (call : Call) (hcall : call ∈ pre) (hno : call.isExists = false) : False := by
  rw [hpre call hcall] at hno
  exact Bool.noConfusion hno

/-- C3.  Let `ct` be the campaign type that the lookup answers.  In every run of `Create`,
each call of the template repository asks for, each call of `campaignsRepo.Set` persists,
each call of the enqueuer carries, and a successful return holds, the template ID that is
`ct.TemplateID` when the campaign's own `TemplateID` is empty and the campaign's own
`TemplateID` otherwise; on a successful return these three calls have all been made. -/
theorem Create_template_resolution (c : CampaignsCollection W) (lib : GoLibrary)
    (conn : ConnectionInterface) (campaign : Campaign) (can : Bool) (w : W) :
    (∀ cn id tpl e,
      Call.templatesGet cn id tpl e ∈ (c.Create lib conn campaign can ⟨w, []⟩).2.calls →
      id = if campaign.TemplateID = ""
        then (c.campaignTypeStep lib conn campaign ⟨w, []⟩).1.1.TemplateID
        else campaign.TemplateID) ∧
    (∀ cn m saved e,
      Call.campaignsSet cn m saved e ∈ (c.Create lib conn campaign can ⟨w, []⟩).2.calls →
      m.TemplateID = if campaign.TemplateID = ""
        then (c.campaignTypeStep lib conn campaign ⟨w, []⟩).1.1.TemplateID
        else campaign.TemplateID) ∧
    (∀ cmp jobType e,
      Call.Enqueue cmp jobType e ∈ (c.Create lib conn campaign can ⟨w, []⟩).2.calls →
      cmp.TemplateID = if campaign.TemplateID = ""
        then (c.campaignTypeStep lib conn campaign ⟨w, []⟩).1.1.TemplateID
        else campaign.TemplateID) ∧
    (∀ v, (c.Create lib conn campaign can ⟨w, []⟩).1 = .returned v none →
      (v.TemplateID = if campaign.TemplateID = ""
        then (c.campaignTypeStep lib conn campaign ⟨w, []⟩).1.1.TemplateID
        else campaign.TemplateID) ∧
      ∃ tpl m saved,
        Call.templatesGet conn v.TemplateID tpl none ∈
          (c.Create lib conn campaign can ⟨w, []⟩).2.calls ∧
        Call.campaignsSet conn m saved none ∈
          (c.Create lib conn campaign can ⟨w, []⟩).2.calls ∧
        Call.Enqueue v "campaign" none ∈
          (c.Create lib conn campaign can ⟨w, []⟩).2.calls) := by
  obtain ⟨pre, hpre, hcases⟩ := Create_runs c lib conn campaign can w
  have hno := not_isExists_of_mem pre hpre
  rcases hcases with ⟨e, h1, h2⟩ | ⟨e, h1, h2⟩ | ⟨ct, e, hct, h1, h2⟩ |
    ⟨ct, hct, _, _, h1, h2⟩ | ⟨ct, tpl, e, hct, _, h1, h2⟩ |
    ⟨ct, tpl, str, e, hct, _, _, h1, h2⟩ | ⟨ct, tpl, sendTo, m, e, hct, _, _, h1, h2⟩ |
    ⟨ct, tpl, sendTo, saved, e, hct, _, _, h1, h2⟩ | ⟨ct, tpl, sendTo, saved, hct, _, _, h1, h2⟩
  all_goals rw [h1, h2]
  all_goals try rw [hct]
  all_goals refine ⟨?_, ?_, ?_, ?_⟩
  all_goals intros
  all_goals simp only [List.mem_append, List.mem_cons, List.mem_singleton, List.not_mem_nil,
    or_false] at *
  all_goals first
    | (rename_i hmem; rcases hmem with hmem | hmem
       · exact (hno _ hmem rfl).elim
       · simp_all [resolveTemplate_TemplateID, setArgument])
    | (rename_i hmem; exact (hno _ hmem rfl).elim)
    | (rename_i hval; simp at hval; done)
    | (rename_i hval
       simp only [Outcome.returned.injEq, and_true] at hval
       subst hval
       exact ⟨resolveTemplate_TemplateID campaign ct, tpl,
         setArgument sendTo (resolveTemplate campaign ct), saved, by simp, by simp, by simp⟩)

theorem index_single (audience guid : String) :
    StringMap.index (some [(audience, guid)]) audience = guid := by
  simp [StringMap.index]

theorem rangeLastKey_single (audience guid : String) :
    StringMap.rangeLastKey (some [(audience, guid)]) = audience := by
  simp [StringMap.rangeLastKey]

/-- C4, as amended.  For a campaign whose single `SendTo` entry `(audience, guid)` names a
user, space or org that the matching finder reports as not existing (`false`, no error),
`Create` returns `Campaign{}` and a `NotFoundError` whose message is `The <audience> `,
then the guid as `%q` quotes it, then ` cannot be found`, whatever the campaign type, the
permission flag and the template are; the finder call is the only call of the run, so the
campaign type repository is not consulted.  The quoted guid is the guid between two double
quotes exactly when all its runes are printable and none is a double quote or a backslash. -/
theorem Create_audience_not_found (c : CampaignsCollection W) (lib : GoLibrary)
    (conn : ConnectionInterface) (campaign : Campaign) (can : Bool) (w w1 : W)
    (f : Finder) (guid : String)
    (hSendTo : campaign.SendTo = some [(f.audience, guid)])
    (hFinder : (c.finder f).Exists guid w = ((false, none), w1)) :
    c.Create lib conn campaign can ⟨w, []⟩ =
        (.returned {} (some (.NotFoundError (.errorString
          ("The " ++ f.audience ++ " " ++ strconv.Quote lib.printTable guid
            ++ " cannot be found")))),
          ⟨w1, [Call.Exists f guid false none]⟩) ∧
      (strconv.Quote lib.printTable guid = "\"" ++ guid ++ "\"" ↔
        ∀ r ∈ guid.toList, strconv.Plain lib.printTable r) := by
  constructor
  · have hE : c.existenceStep lib campaign ⟨w, []⟩ =
        ((false, none), ⟨w1, [Call.Exists f guid false none]⟩) := by
      unfold existenceStep
      rw [hSendTo, rangeLastKey_single, index_single, checkForExistence_finder]
      unfold callExists
      simp only []
      rw [hFinder]
      rfl
    unfold Create
    rw [validate_eq, hE, hSendTo, rangeLastKey_single, index_single]
  · exact strconv.Quote_eq_iff_plain lib.printTable guid

/-- C4, the claim as written fails: for the user GUID `a"b` the message is
`The user "a\"b" cannot be found`, with the quote escaped, and not the GUID between two
double quotes. -/
theorem Create_not_found_message_counterexample :
    ((fakes.collection { found := (false, none) }).Create fakes.library 7
        { fakes.campaign with SendTo := some [("user", "a\"b")] } false fakes.start).1
      = .returned {} (some (.NotFoundError
          (.errorString "The user \"a\\\"b\" cannot be found"))) ∧
    ((fakes.collection { found := (false, none) }).Create fakes.library 7
        { fakes.campaign with SendTo := some [("user", "a\"b")] } false fakes.start).1
      ≠ .returned {} (some (.NotFoundError
          (.errorString ("The user \"" ++ "a\"b" ++ "\" cannot be found")))) := by
  decide

/-- C4, an instance: the user `user-380` is reported missing. -/
theorem Create_audience_not_found_witness :
    (fakes.collection { found := (false, none) }).Create fakes.library 7 fakes.campaign true
        ⟨{}, []⟩ =
      (.returned {} (some (.NotFoundError (.errorString
        ("The " ++ Finder.user.audience ++ " " ++
          strconv.Quote fakes.library.printTable "user-380" ++ " cannot be found")))),
        ⟨{}, [Call.Exists .user "user-380" false none]⟩) ∧
    (strconv.Quote fakes.library.printTable "user-380" = "\"" ++ "user-380" ++ "\"" ↔
      ∀ r ∈ "user-380".toList, strconv.Plain fakes.library.printTable r) :=
  Create_audience_not_found (fakes.collection { found := (false, none) }) fakes.library 7
    fakes.campaign true {} {} .user "user-380" rfl rfl

/-- C5, an instance: a missing user gives a `NotFoundError`, and nothing was stored or
enqueued. -/
theorem Create_validation_error_not_queued_witness :
    ((fakes.collection { found := (false, none) }).Create fakes.library 7 fakes.campaign true
        ⟨{}, []⟩).1 =
      .returned {} (some (.NotFoundError
        (.errorString "The user \"user-380\" cannot be found"))) ∧
    ∀ call ∈ ((fakes.collection { found := (false, none) }).Create fakes.library 7
        fakes.campaign true ⟨{}, []⟩).2.calls,
      call.isCampaignsSet = false ∧ call.isEnqueue = false :=
  ⟨by decide,
    Create_validation_error_not_queued (fakes.collection { found := (false, none) })
      fakes.library 7 fakes.campaign true {} {} _
      (.errorString "The user \"user-380\" cannot be found") (by decide)
      (Or.inr (Or.inl rfl))⟩

/-- C6.  In a run of `Create` in which `enqueuer.Enqueue` answered the error `e`, validation
had passed and the campaign had been persisted (`campaignsRepo.Set` had answered without
error), and `Create` returns `Campaign{}` together with `PersistenceError{e}`. -/
theorem Create_enqueue_error (c : CampaignsCollection W) (lib : GoLibrary)
    (conn : ConnectionInterface) (campaign : Campaign) (can : Bool) (w : W)
    (cmp : Campaign) (jobType : String) (e : GoError)
    (hEnqueue : Call.Enqueue cmp jobType (some e) ∈
      (c.Create lib conn campaign can ⟨w, []⟩).2.calls) :
    (c.Create lib conn campaign can ⟨w, []⟩).1 = .returned {} (some (.PersistenceError e)) ∧
      ∃ m saved, Call.campaignsSet conn m saved none ∈
        (c.Create lib conn campaign can ⟨w, []⟩).2.calls := by
  obtain ⟨pre, hpre, hcases⟩ := Create_runs c lib conn campaign can w
  have hno := not_isExists_of_mem pre hpre
  rcases hcases with ⟨e1, h1, h2⟩ | ⟨e1, h1, h2⟩ | ⟨ct, e1, hct, h1, h2⟩ |
    ⟨ct, hct, _, _, h1, h2⟩ | ⟨ct, tpl, e1, hct, _, h1, h2⟩ |
    ⟨ct, tpl, str, e1, hct, _, _, h1, h2⟩ | ⟨ct, tpl, sendTo, m1, e1, hct, _, _, h1, h2⟩ |
    ⟨ct, tpl, sendTo, saved1, e1, hct, _, _, h1, h2⟩ |
    ⟨ct, tpl, sendTo, saved1, hct, _, _, h1, h2⟩
  all_goals rw [h2] at hEnqueue
  all_goals rw [h1, h2]
  all_goals try simp only [List.mem_append, List.mem_cons, List.mem_singleton,
    List.not_mem_nil, or_false] at hEnqueue
  all_goals first
    | exact (hno _ hEnqueue rfl).elim
    | (rcases hEnqueue with h | h
       · exact (hno _ h rfl).elim
       · simp_all; done)
    | skip
  rcases hEnqueue with h | h
  · exact (hno _ h rfl).elim
  · simp only [Call.Enqueue.injEq, false_or, reduceCtorEq] at h
    obtain ⟨_, _, h3⟩ := h
    simp only [Option.some.injEq] at h3
    refine ⟨by rw [h3], setArgument sendTo (resolveTemplate campaign ct), saved1, ?_⟩
    simp

/-- C7, what the code does: in a run of `Create` in which `campaignsRepo.Set` answered the
error `e`, `Create` does not return at all but panics with `e`; the enqueuer has not been
called. -/
theorem Create_set_error_panics (c : CampaignsCollection W) (lib : GoLibrary)
    (conn : ConnectionInterface) (campaign : Campaign) (can : Bool) (w : W)
    (cn : ConnectionInterface) (m saved : models.Campaign) (e : GoError)
    (hSet : Call.campaignsSet cn m saved (some e) ∈
      (c.Create lib conn campaign can ⟨w, []⟩).2.calls) :
    (c.Create lib conn campaign can ⟨w, []⟩).1 = .panicked e ∧
      ∀ call ∈ (c.Create lib conn campaign can ⟨w, []⟩).2.calls, call.isEnqueue = false := by
  obtain ⟨pre, hpre, hcases⟩ := Create_runs c lib conn campaign can w
  have hno := not_isExists_of_mem pre hpre
  have hpre2 : ∀ call ∈ pre, call.isEnqueue = false := by
    intro call hcall
    have := hpre call hcall
    cases call <;> simp_all [Call.isExists, Call.isEnqueue]
  rcases hcases with ⟨e1, h1, h2⟩ | ⟨e1, h1, h2⟩ | ⟨ct, e1, hct, h1, h2⟩ |
    ⟨ct, hct, _, _, h1, h2⟩ | ⟨ct, tpl, e1, hct, _, h1, h2⟩ |
    ⟨ct, tpl, str, e1, hct, _, _, h1, h2⟩ | ⟨ct, tpl, sendTo, m1, e1, hct, _, _, h1, h2⟩ |
    ⟨ct, tpl, sendTo, saved1, e1, hct, _, _, h1, h2⟩ |
    ⟨ct, tpl, sendTo, saved1, hct, _, _, h1, h2⟩
  all_goals rw [h2] at hSet
  all_goals rw [h1, h2]
  all_goals try simp only [List.mem_append, List.mem_cons, List.mem_singleton,
    List.not_mem_nil, or_false] at hSet
  all_goals first
    | exact (hno _ hSet rfl).elim
    | (rcases hSet with h | h
       · exact (hno _ h rfl).elim
       · simp_all; done)
    | skip
  rcases hSet with h | h
  · exact (hno _ h rfl).elim
  · simp only [Call.campaignsSet.injEq, false_or, reduceCtorEq] at h
    obtain ⟨_, _, _, h4⟩ := h
    simp only [Option.some.injEq] at h4
    refine ⟨by rw [h4], ?_⟩
    intro call hcall
    simp only [List.mem_append, List.mem_cons, List.mem_singleton, List.not_mem_nil,
      or_false] at hcall
    rcases hcall with h | h | h | h
    · exact hpre2 call h
    · rw [h]; rfl
    · rw [h]; rfl
    · rw [h]; rfl

/-- C6, an instance: the queue refuses the job with the error `BOOM`. -/
theorem Create_enqueue_error_witness :
    Call.Enqueue { fakes.campaign with ID := "campaign-id" } "campaign"
        (some (.errorString "BOOM")) ∈
      ((fakes.collection { enqueueError := some (.errorString "BOOM") }).Create fakes.library 7
        fakes.campaign false ⟨{}, []⟩).2.calls ∧
    (((fakes.collection { enqueueError := some (.errorString "BOOM") }).Create fakes.library 7
        fakes.campaign false ⟨{}, []⟩).1 =
      .returned {} (some (.PersistenceError (.errorString "BOOM"))) ∧
      ∃ m saved, Call.campaignsSet 7 m saved none ∈
        ((fakes.collection { enqueueError := some (.errorString "BOOM") }).Create
          fakes.library 7 fakes.campaign false ⟨{}, []⟩).2.calls) :=
  ⟨by decide,
    Create_enqueue_error (fakes.collection { enqueueError := some (.errorString "BOOM") })
      fakes.library 7 fakes.campaign false {} _ _ _
      (by decide : Call.Enqueue { fakes.campaign with ID := "campaign-id" } "campaign"
        (some (.errorString "BOOM")) ∈
          ((fakes.collection { enqueueError := some (.errorString "BOOM") }).Create
            fakes.library 7 fakes.campaign false ⟨{}, []⟩).2.calls)⟩

/-- C7, the failing input: the repository refuses the row with the error `BOOM`, and
`Create` panics with it instead of returning a `PersistenceError`. -/
theorem Create_set_error_panics_witness :
    Call.campaignsSet 7 (setArgument "\x7b\"user\":\"user-380\"\x7d" fakes.campaign) {}
        (some (.errorString "BOOM")) ∈
      ((fakes.collection { setError := some (.errorString "BOOM") }).Create fakes.library 7
        fakes.campaign false ⟨{}, []⟩).2.calls ∧
    (((fakes.collection { setError := some (.errorString "BOOM") }).Create fakes.library 7
        fakes.campaign false ⟨{}, []⟩).1 = .panicked (.errorString "BOOM") ∧
      ∀ call ∈ ((fakes.collection { setError := some (.errorString "BOOM") }).Create
        fakes.library 7 fakes.campaign false ⟨{}, []⟩).2.calls, call.isEnqueue = false) :=
  ⟨by decide,
    Create_set_error_panics (fakes.collection { setError := some (.errorString "BOOM") })
      fakes.library 7 fakes.campaign false {} 7 _ _ _
      (by decide : Call.campaignsSet 7 (setArgument "\x7b\"user\":\"user-380\"\x7d" fakes.campaign) {}
        (some (.errorString "BOOM")) ∈
          ((fakes.collection { setError := some (.errorString "BOOM") }).Create
            fakes.library 7 fakes.campaign false ⟨{}, []⟩).2.calls)⟩

/-- C1, an instance: a critical campaign type without the elevated scope. -/
theorem Create_permissions_iff_witness :
    ((fakes.collection { campaignType := ({ Critical := true }, none) }).Create fakes.library 7
        fakes.campaign false ⟨{}, []⟩).1 =
      .returned {} (some (.PermissionsError
        (.errorString "Scope critical_notifications.write is required"))) ∧
    ∀ call ∈ ((fakes.collection { campaignType := ({ Critical := true }, none) }).Create
        fakes.library 7 fakes.campaign false ⟨{}, []⟩).2.calls,
      call.isTemplatesGet = false ∧ call.isCampaignsSet = false ∧ call.isEnqueue = false :=
  (Create_permissions_iff (fakes.collection { campaignType := ({ Critical := true }, none) })
    fakes.library 7 fakes.campaign false {}).2
    ⟨{}, .errorString "Scope critical_notifications.write is required", by decide⟩

/-- C3, an instance: a campaign without a template takes the template of its type. -/
theorem Create_template_resolution_witness :
    ((fakes.collection { campaignType := ({ TemplateID := "default-template" }, none) }).Create
        fakes.library 7 fakes.campaign false ⟨{}, []⟩).1 =
      .returned { fakes.campaign with ID := "campaign-id", TemplateID := "default-template" }
        none ∧
    ((fakes.collection { campaignType := ({ TemplateID := "default-template" }, none) }).Create
        fakes.library 7 { fakes.campaign with TemplateID := "my-template" } false ⟨{}, []⟩).1 =
      .returned { fakes.campaign with ID := "campaign-id", TemplateID := "my-template" } none ∧
    (∀ cn m saved e, Call.campaignsSet cn m saved e ∈
        ((fakes.collection { campaignType := ({ TemplateID := "default-template" }, none) }).Create
          fakes.library 7 fakes.campaign false ⟨{}, []⟩).2.calls →
      m.TemplateID = if fakes.campaign.TemplateID = ""
        then ((fakes.collection
          { campaignType := ({ TemplateID := "default-template" }, none) }).campaignTypeStep
            fakes.library 7 fakes.campaign ⟨{}, []⟩).1.1.TemplateID
        else fakes.campaign.TemplateID) :=
  ⟨by decide, by decide,
    (Create_template_resolution
      (fakes.collection { campaignType := ({ TemplateID := "default-template" }, none) })
      fakes.library 7 fakes.campaign false {}).2.1⟩

end CampaignsCollection

end collections

namespace services

namespace EveryoneStrategy

variable {W : Type}

/-- C9.  If the token loader answers an error, or the token loader succeeds and the
all-users lookup answers an error, `Dispatch` returns exactly that error, and the
Enqueuer has not been called. -/
theorem Dispatch_lookup_failure (strategy : EveryoneStrategy W) (dispatch : services.Dispatch)
    (w : W) :
    (∀ token err w1, strategy.tokenLoader dispatch.UAAHost w = ((token, some err), w1) →
      (strategy.Dispatch dispatch ⟨w, []⟩).1.2 = some err ∧
        (strategy.Dispatch dispatch ⟨w, []⟩).2.calls =
          [Call.Load dispatch.UAAHost token (some err)] ∧
        ∀ call ∈ (strategy.Dispatch dispatch ⟨w, []⟩).2.calls, call.isEnqueue = false) ∧
    (∀ token w1 guids err w2, strategy.tokenLoader dispatch.UAAHost w = ((token, none), w1) →
      strategy.allUsers token w1 = ((guids, some err), w2) →
      (strategy.Dispatch dispatch ⟨w, []⟩).1.2 = some err ∧
        (strategy.Dispatch dispatch ⟨w, []⟩).2.calls =
          [Call.Load dispatch.UAAHost token none, Call.AllUserGUIDs token guids (some err)] ∧
        ∀ call ∈ (strategy.Dispatch dispatch ⟨w, []⟩).2.calls, call.isEnqueue = false) := by
  constructor
  · intro token err w1 hT
    have hD : strategy.Dispatch dispatch ⟨w, []⟩ =
        (([], some err), ⟨w1, [Call.Load dispatch.UAAHost token (some err)]⟩) := by
      unfold Dispatch
      simp only [hT, List.nil_append]
    rw [hD]
    refine ⟨rfl, rfl, ?_⟩
    intro call hcall
    simp only [List.mem_singleton] at hcall
    rw [hcall]
    rfl
  · intro token w1 guids err w2 hT hG
    have hD : strategy.Dispatch dispatch ⟨w, []⟩ =
        (([], some err), ⟨w2, [Call.Load dispatch.UAAHost token none,
          Call.AllUserGUIDs token guids (some err)]⟩) := by
      unfold Dispatch
      simp only [hT, hG, List.nil_append, List.singleton_append]
    rw [hD]
    refine ⟨rfl, rfl, ?_⟩
    intro call hcall
    simp only [List.mem_cons, List.mem_singleton, List.not_mem_nil, or_false] at hcall
    rcases hcall with h | h <;> rw [h] <;> rfl

/-- C9, an instance: the two failure cases of the test, with the error `BOOM!`. -/
theorem Dispatch_lookup_failure_witness :
    (((fakes.everyone ("", some (.errorString "BOOM!")) ([], none)).Dispatch
        fakes.dispatch ⟨0, []⟩).1.2 = some (.errorString "BOOM!") ∧
      ((fakes.everyone ("", some (.errorString "BOOM!")) ([], none)).Dispatch
        fakes.dispatch ⟨0, []⟩).2.calls =
          [Call.Load fakes.dispatch.UAAHost "" (some (.errorString "BOOM!"))] ∧
      ∀ call ∈ ((fakes.everyone ("", some (.errorString "BOOM!")) ([], none)).Dispatch
        fakes.dispatch ⟨0, []⟩).2.calls, call.isEnqueue = false) ∧
    (((fakes.everyone ("some-token", none) ([], some (.errorString "BOOM!"))).Dispatch
        fakes.dispatch ⟨0, []⟩).1.2 = some (.errorString "BOOM!") ∧
      ((fakes.everyone ("some-token", none) ([], some (.errorString "BOOM!"))).Dispatch
        fakes.dispatch ⟨0, []⟩).2.calls =
          [Call.Load fakes.dispatch.UAAHost "some-token" none,
            Call.AllUserGUIDs "some-token" [] (some (.errorString "BOOM!"))] ∧
      ∀ call ∈ ((fakes.everyone ("some-token", none) ([], some (.errorString "BOOM!"))).Dispatch
        fakes.dispatch ⟨0, []⟩).2.calls, call.isEnqueue = false) :=
  ⟨(Dispatch_lookup_failure (fakes.everyone ("", some (.errorString "BOOM!")) ([], none))
      fakes.dispatch 0).1 "" (.errorString "BOOM!") 0 rfl,
    (Dispatch_lookup_failure (fakes.everyone ("some-token", none)
      ([], some (.errorString "BOOM!"))) fakes.dispatch 0).2 "some-token" 0 []
      (.errorString "BOOM!") 0 rfl rfl⟩

/-- C10.  When the token loader answers `token` for `dispatch.UAAHost` and the all-users
lookup answers `guids` for that token, `Dispatch` makes exactly three calls: it loads the
token for the UAA host, queries all users with the token, and calls `Enqueue` once with the
connection of the dispatch; one `User{GUID: g}` per GUID, in order; the Options copied field
by field from the message, the kind and the client description, with the everyone
endorsement; the empty space and organization; the client ID; the scope `""`; and the VCAP
request ID, UAA host and receipt time of the dispatch.  It returns what `Enqueue` answers. -/
theorem Dispatch_enqueues (strategy : EveryoneStrategy W) (dispatch : services.Dispatch)
    (w w1 w2 : W) (token : String) (guids : List String)
    (hToken : strategy.tokenLoader dispatch.UAAHost w = ((token, none), w1))
    (hUsers : strategy.allUsers token w1 = ((guids, none), w2)) :
    ∃ responses err,
      (strategy.Dispatch dispatch ⟨w, []⟩).1 = (responses, err) ∧
      (strategy.Dispatch dispatch ⟨w, []⟩).2.calls =
        [Call.Load dispatch.UAAHost token none,
          Call.AllUserGUIDs token guids none,
          Call.Enqueue
            { Connection := dispatch.Connection
              Users := guids.map (fun g => { GUID := g })
              Options :=
                { ReplyTo := dispatch.Message.ReplyTo
                  Subject := dispatch.Message.Subject
                  To := dispatch.Message.To
                  KindID := dispatch.Kind.ID
                  KindDescription := dispatch.Kind.Description
                  SourceDescription := dispatch.Client.Description
                  Text := dispatch.Message.Text
                  HTML := dispatch.Message.HTML
                  Endorsement := EveryoneEndorsement }
              Space := {}
              Org := {}
              Client := dispatch.Client.ID
              Scope := ""
              VCAPRequestID := dispatch.VCAPRequest.ID
              UAAHost := dispatch.UAAHost
              RequestReceived := dispatch.VCAPRequest.ReceiptTime }
            responses err] := by
  refine ⟨_, _, rfl, ?_⟩
  unfold Dispatch
  simp only [hToken, hUsers, List.nil_append, List.singleton_append]
  rfl

/-- C10, an instance: the dispatch of the test, with the two users the fake lookup
returns. -/
theorem Dispatch_enqueues_witness :
    ∃ responses err,
      ((fakes.everyone ("some-token", none) (["user-380", "user-319"], none)).Dispatch
        fakes.dispatch ⟨0, []⟩).1 = (responses, err) ∧
      ((fakes.everyone ("some-token", none) (["user-380", "user-319"], none)).Dispatch
        fakes.dispatch ⟨0, []⟩).2.calls =
        [Call.Load fakes.dispatch.UAAHost "some-token" none,
          Call.AllUserGUIDs "some-token" ["user-380", "user-319"] none,
          Call.Enqueue
            { Connection := fakes.dispatch.Connection
              Users := ["user-380", "user-319"].map (fun g => { GUID := g })
              Options :=
                { ReplyTo := fakes.dispatch.Message.ReplyTo
                  Subject := fakes.dispatch.Message.Subject
                  To := fakes.dispatch.Message.To
                  KindID := fakes.dispatch.Kind.ID
                  KindDescription := fakes.dispatch.Kind.Description
                  SourceDescription := fakes.dispatch.Client.Description
                  Text := fakes.dispatch.Message.Text
                  HTML := fakes.dispatch.Message.HTML
                  Endorsement := EveryoneEndorsement }
              Space := {}
              Org := {}
              Client := fakes.dispatch.Client.ID
              Scope := ""
              VCAPRequestID := fakes.dispatch.VCAPRequest.ID
              UAAHost := fakes.dispatch.UAAHost
              RequestReceived := fakes.dispatch.VCAPRequest.ReceiptTime }
            responses err] :=
  Dispatch_enqueues (fakes.everyone ("some-token", none) (["user-380", "user-319"], none))
    fakes.dispatch 0 0 0 "some-token" ["user-380", "user-319"] rfl rfl

end EveryoneStrategy

end services

namespace application

namespace Mother

/-- C11, as amended.  The wait ceiling of the queue is taken from the configuration: it is
the `int64` product of `GobbleWaitMaxDuration` and `time.Millisecond`.  That product is
`GobbleWaitMaxDuration` milliseconds (`GobbleWaitMaxDuration × 1,000,000` nanoseconds)
exactly when `GobbleWaitMaxDuration` lies between -9223372036854 and 9223372036854; outside
this range the product wraps around. -/
theorem Queue_WaitMaxDuration (env : Environment) :
    (Queue env).WaitMaxDuration = time.wrapInt64 (env.GobbleWaitMaxDuration * 1000000) ∧
      ((Queue env).WaitMaxDuration = env.GobbleWaitMaxDuration * 1000000 ↔
        -9223372036854 ≤ env.GobbleWaitMaxDuration ∧
          env.GobbleWaitMaxDuration ≤ 9223372036854) := by
  have hq : (Queue env).WaitMaxDuration =
      time.wrapInt64 (env.GobbleWaitMaxDuration * 1000000) := rfl
  have hw : ∀ x : Int, time.wrapInt64 x = x ↔
      -9223372036854775808 ≤ x ∧ x ≤ 9223372036854775807 := by
    intro x
    unfold time.wrapInt64
    constructor <;> intro h <;> omega
  refine ⟨hq, ?_⟩
  rw [hq]
  refine (hw (env.GobbleWaitMaxDuration * 1000000)).trans ?_
  constructor <;> intro h <;> omega

/-- C11, the claim as written fails: for the configured value 9223372036855, which an
`int` of 64 bits holds, the wait ceiling is the negative duration -9223372036854551616 and
not 9223372036855 milliseconds. -/
theorem Queue_WaitMaxDuration_counterexample :
    (Queue ⟨9223372036855⟩).WaitMaxDuration = -9223372036854551616 ∧
      (Queue ⟨9223372036855⟩).WaitMaxDuration ≠ 9223372036855 * 1000000 := by
  decide

end Mother

end application

namespace gobble

theorem delay_le_ceiling (cfg : Backoff) (attempt : Nat) : delay cfg attempt ≤ cfg.ceiling := by
  unfold delay
  exact Nat.min_le_right _ _

theorem delay_lt_succ (cfg : Backoff) (attempt : Nat) (hbase : 0 < cfg.baseDelay)
    (hbelow : delay cfg attempt < cfg.ceiling) :
    delay cfg attempt < delay cfg (attempt + 1) := by
  unfold delay at *
  have hpow : 0 < 2 ^ attempt := Nat.two_pow_pos attempt
  have hmul : 0 < cfg.baseDelay * 2 ^ attempt := Nat.mul_pos hbase hpow
  have hsucc : cfg.baseDelay * 2 ^ (attempt + 1) = 2 * (cfg.baseDelay * 2 ^ attempt) := by
    rw [pow_succ]
    ring
  rw [hsucc]
  have hlt : cfg.baseDelay * 2 ^ attempt < cfg.ceiling := by
    rcases Nat.le_total (cfg.baseDelay * 2 ^ attempt) cfg.ceiling with h | h
    · rw [Nat.min_eq_left h] at hbelow
      exact hbelow
    · rw [Nat.min_eq_right h] at hbelow
      exact (Nat.lt_irrefl _ hbelow).elim
  rw [Nat.min_eq_left (Nat.le_of_lt hlt)]
  exact lt_min (by omega) hlt

theorem delay_le_succ (cfg : Backoff) (attempt : Nat) :
    delay cfg attempt ≤ delay cfg (attempt + 1) := by
  unfold delay
  have hsucc : cfg.baseDelay * 2 ^ (attempt + 1) = 2 * (cfg.baseDelay * 2 ^ attempt) := by
    rw [pow_succ]
    ring
  rw [hsucc]
  exact le_min (le_trans (Nat.min_le_left _ _) (by omega)) (Nat.min_le_right _ _)

/-- C13, as amended.  For two consecutive failures of a Job that is retried both times, at
the times `now` and `now'`: the delay that `Fail` adds is base delay × 2^attempt capped at the
ceiling; no delay exceeds the ceiling and no delay is smaller than the one before.  With a
positive base delay, while the ceiling is not reached the next delay is strictly larger, so
that the second `active_at` is strictly later than the first whenever the second failure is
not before the first; it is also strictly later once the ceiling is reached, when the second
failure is not before the first `active_at` (the Job is leased again only once its
`active_at` has passed).  For any base delay the second `active_at` is strictly later when
the second failure is after the first. -/
theorem Fail_backoff (cfg : Backoff) (job : Job) (now now' : Nat)
    (hretry : job.attempts + 2 < cfg.maxRetries) :
    (Fail cfg now job).activeAt =
        now + min (cfg.baseDelay * 2 ^ (job.attempts + 1)) cfg.ceiling ∧
      (Fail cfg now' (Fail cfg now job)).activeAt =
        now' + min (cfg.baseDelay * 2 ^ (job.attempts + 2)) cfg.ceiling ∧
      (∀ attempt, delay cfg attempt ≤ cfg.ceiling) ∧
      (∀ attempt, delay cfg attempt ≤ delay cfg (attempt + 1)) ∧
      (0 < cfg.baseDelay → ∀ attempt, delay cfg attempt < cfg.ceiling →
        delay cfg attempt < delay cfg (attempt + 1)) ∧
      (0 < cfg.baseDelay → now ≤ now' → delay cfg (job.attempts + 1) < cfg.ceiling →
        (Fail cfg now job).activeAt < (Fail cfg now' (Fail cfg now job)).activeAt) ∧
      (0 < cfg.baseDelay → (Fail cfg now job).activeAt ≤ now' → 0 < cfg.ceiling →
        (Fail cfg now job).activeAt < (Fail cfg now' (Fail cfg now job)).activeAt) ∧
      (now < now' →
        (Fail cfg now job).activeAt < (Fail cfg now' (Fail cfg now job)).activeAt) := by
  have h1 : Fail cfg now job =
      { attempts := job.attempts + 1
        activeAt := now + delay cfg (job.attempts + 1)
        status := Status.pending } := by
    unfold Fail
    rw [if_pos (by omega)]
  have h2 : Fail cfg now' (Fail cfg now job) =
      { attempts := job.attempts + 2
        activeAt := now' + delay cfg (job.attempts + 2)
        status := Status.pending } := by
    rw [h1]
    unfold Fail
    rw [if_pos (by simp only []; omega)]
  rw [h2, h1]
  refine ⟨rfl, rfl, delay_le_ceiling cfg, delay_le_succ cfg,
    fun hbase a h => delay_lt_succ cfg a hbase h, ?_, ?_, ?_⟩
  · intro hbase hle hbelow
    have hlt : delay cfg (job.attempts + 1) < delay cfg (job.attempts + 2) :=
      delay_lt_succ cfg (job.attempts + 1) hbase hbelow
    simp only []
    omega
  · intro hbase hle hceil
    have hpos : 0 < delay cfg (job.attempts + 2) := by
      unfold delay
      exact lt_min (Nat.mul_pos hbase (Nat.two_pow_pos _)) hceil
    simp only [] at hle ⊢
    omega
  · intro hlt
    have hmono : delay cfg (job.attempts + 1) ≤ delay cfg (job.attempts + 2) :=
      delay_le_succ cfg (job.attempts + 1)
    simp only []
    omega

/-- C13, an instance: base delay 1, ceiling 100, at most 5 tries; a fresh Job fails at the
times 10 and 12, and its `active_at` moves from 12 to 16. -/
theorem Fail_backoff_witness :
    ((Fail ⟨1, 100, 5⟩ 10 {}).activeAt = 12 ∧
      (Fail ⟨1, 100, 5⟩ 12 (Fail ⟨1, 100, 5⟩ 10 {})).activeAt = 16) ∧
    ((Fail ⟨1, 100, 5⟩ 10 {}).activeAt = 10 + min (1 * 2 ^ (0 + 1)) 100 ∧
      (Fail ⟨1, 100, 5⟩ 12 (Fail ⟨1, 100, 5⟩ 10 {})).activeAt = 12 + min (1 * 2 ^ (0 + 2)) 100 ∧
      (∀ attempt, delay ⟨1, 100, 5⟩ attempt ≤ 100) ∧
      (∀ attempt, delay ⟨1, 100, 5⟩ attempt ≤ delay ⟨1, 100, 5⟩ (attempt + 1)) ∧
      (0 < 1 → ∀ attempt, delay ⟨1, 100, 5⟩ attempt < 100 →
        delay ⟨1, 100, 5⟩ attempt < delay ⟨1, 100, 5⟩ (attempt + 1)) ∧
      (0 < 1 → 10 ≤ 12 → delay ⟨1, 100, 5⟩ (0 + 1) < 100 →
        (Fail ⟨1, 100, 5⟩ 10 {}).activeAt <
          (Fail ⟨1, 100, 5⟩ 12 (Fail ⟨1, 100, 5⟩ 10 {})).activeAt) ∧
      (0 < 1 → (Fail ⟨1, 100, 5⟩ 10 {}).activeAt ≤ 12 → 0 < 100 →
        (Fail ⟨1, 100, 5⟩ 10 {}).activeAt <
          (Fail ⟨1, 100, 5⟩ 12 (Fail ⟨1, 100, 5⟩ 10 {})).activeAt) ∧
      (10 < 12 →
        (Fail ⟨1, 100, 5⟩ 10 {}).activeAt <
          (Fail ⟨1, 100, 5⟩ 12 (Fail ⟨1, 100, 5⟩ 10 {})).activeAt)) :=
  ⟨by decide, Fail_backoff ⟨1, 100, 5⟩ {} 10 12 (by decide)⟩

/-- C13, the claim as written fails: with the base delay 0, the ceiling 100 and both
failures at the time 10, the delays 0 stay below the ceiling, and the second `active_at` is
10 like the first, not strictly later. -/
theorem Fail_backoff_counterexample :
    delay ⟨0, 100, 5⟩ 1 < 100 ∧ delay ⟨0, 100, 5⟩ 2 < 100 ∧
      (Fail ⟨0, 100, 5⟩ 10 {}).status = Status.pending ∧
      (Fail ⟨0, 100, 5⟩ 10 (Fail ⟨0, 100, 5⟩ 10 {})).status = Status.pending ∧
      (Fail ⟨0, 100, 5⟩ 10 {}).activeAt = 10 ∧
      (Fail ⟨0, 100, 5⟩ 10 (Fail ⟨0, 100, 5⟩ 10 {})).activeAt = 10 ∧
      ¬ ((Fail ⟨0, 100, 5⟩ 10 {}).activeAt <
        (Fail ⟨0, 100, 5⟩ 10 (Fail ⟨0, 100, 5⟩ 10 {})).activeAt) := by
  decide

end gobble

namespace collections

namespace CampaignsCollection

variable {W : Type}

/-- C18.  The result of `Get` is the same for every `senderID` and `clientID`; for two
collections and worlds whose repository gives the same answer for the campaign ID, the
outcome is the same; and a returned Campaign has the ID that was asked for and an empty
`ClientID`. -/
theorem Get_ignores_sender_and_client (c : CampaignsCollection W) (jlib : JSONLibrary)
    (connection : ConnectionInterface) (campaignID : String) (s : Run W) :
    (∀ senderID clientID senderID' clientID',
      c.Get jlib connection campaignID senderID clientID s =
        c.Get jlib connection campaignID senderID' clientID' s) ∧
    (∀ (c' : CampaignsCollection W) (s' : Run W) senderID clientID senderID' clientID',
      (c.campaignsRepo.Get connection campaignID s.world).1 =
        (c'.campaignsRepo.Get connection campaignID s'.world).1 →
      (c.Get jlib connection campaignID senderID clientID s).1 =
        (c'.Get jlib connection campaignID senderID' clientID' s').1) ∧
    (∀ senderID clientID v err,
      (c.Get jlib connection campaignID senderID clientID s).1 = .returned v err →
        v.ID = campaignID ∧ v.ClientID = "" ∧ err = none) := by
  refine ⟨fun _ _ _ _ => rfl, ?_, ?_⟩
  · intro c' s' senderID clientID senderID' clientID' h
    rcases hG : c.campaignsRepo.Get connection campaignID s.world with ⟨⟨model, oe⟩, w1⟩
    rcases hG' : c'.campaignsRepo.Get connection campaignID s'.world with ⟨⟨model', oe'⟩, w1'⟩
    rw [hG, hG'] at h
    simp only [Prod.mk.injEq] at h
    obtain ⟨hm, ho⟩ := h
    subst hm ho
    simp only [Get, callCampaignsGet, hG, hG']
    cases oe with
    | some e => rfl
    | none =>
      simp only []
      rcases jlib.unmarshalStringMap model.SendTo with ⟨sendTo, _ | e⟩ <;> rfl
  · intro senderID clientID v err h
    rcases hG : c.campaignsRepo.Get connection campaignID s.world with ⟨⟨model, oe⟩, w1⟩
    simp only [Get, callCampaignsGet, hG] at h
    cases oe with
    | some e => simp at h
    | none =>
      simp only [] at h
      rcases hU : jlib.unmarshalStringMap model.SendTo with ⟨sendTo, _ | e⟩
      · rw [hU] at h
        simp only [Outcome.returned.injEq] at h
        obtain ⟨hv, he⟩ := h
        rw [← hv, ← he]
        exact ⟨rfl, rfl, rfl⟩
      · rw [hU] at h
        simp at h

end CampaignsCollection

end collections

/-! ## `strings.Split` -/

namespace strings

theorem splitFrom_cons_zero (sep : List Char) (c : Char) (rest cur : List Char) :
    splitFrom sep (c :: rest) 0 cur =
      if sep.isPrefixOf (c :: rest) then cur.reverse :: splitFrom sep rest (sep.length - 1) []
      else splitFrom sep rest 0 (c :: cur) := by
  rw [splitFrom]

theorem splitFrom_cons_succ (sep : List Char) (c : Char) (rest cur : List Char) (skip : Nat) :
    splitFrom sep (c :: rest) (skip + 1) cur = splitFrom sep rest skip cur := by
  rw [splitFrom]

theorem splitFrom_skip (sep : List Char) (x : List Char) :
    ∀ (b cur : List Char), splitFrom sep (x ++ b) x.length cur = splitFrom sep b 0 cur := by
  induction x with
  | nil => intro b cur; rfl
  | cons c x ih =>
    intro b cur
    rw [List.cons_append, List.length_cons, splitFrom_cons_succ]
    exact ih b cur

theorem splitFrom_sep (sep b cur : List Char) (hsep : sep ≠ []) :
    splitFrom sep (sep ++ b) 0 cur = cur.reverse :: splitFrom sep b 0 [] := by
  cases sep with
  | nil => exact (hsep rfl).elim
  | cons c t =>
    have hpre : (c :: t).isPrefixOf (c :: (t ++ b)) = true := by
      rw [List.isPrefixOf_iff_prefix]
      exact List.prefix_append (c :: t) b
    rw [List.cons_append, splitFrom_cons_zero, if_pos hpre, List.length_cons,
      Nat.add_sub_cancel, splitFrom_skip]

theorem splitFrom_pass (sep : List Char) (a : List Char) :
    ∀ (rest cur : List Char),
      (∀ a1 a2, a = a1 ++ a2 → a2 ≠ [] → sep.isPrefixOf (a2 ++ rest) = false) →
      splitFrom sep (a ++ rest) 0 cur = splitFrom sep rest 0 (a.reverse ++ cur) := by
  induction a with
  | nil => intro rest cur _; rfl
  | cons c a ih =>
    intro rest cur h
    have h0 : sep.isPrefixOf (c :: (a ++ rest)) = false :=
      h [] (c :: a) rfl (List.cons_ne_nil c a)
    rw [List.cons_append, splitFrom_cons_zero, if_neg (by rw [h0]; decide),
      ih rest (c :: cur) (fun a1 a2 e hne => h (c :: a1) a2 (by rw [e]; rfl) hne)]
    simp

theorem splitFrom_last (sep b cur : List Char)
    (h : ∀ b1 b2, b = b1 ++ b2 → b2 ≠ [] → sep.isPrefixOf b2 = false) :
    splitFrom sep b 0 cur = [cur.reverse ++ b] := by
  have := splitFrom_pass sep b [] cur (by simpa using h)
  simp only [List.append_nil] at this
  rw [this]
  simp [splitFrom]

theorem length_splitFrom_slash (s : List Char) :
    ∀ cur : List Char, (splitFrom ['/'] s 0 cur).length = s.count '/' + 1 := by
  induction s with
  | nil => intro cur; rfl
  | cons c s ih =>
    intro cur
    by_cases hc : c = '/'
    · subst hc
      have hpre : ['/'].isPrefixOf ('/' :: s) = true := by
        simp [List.isPrefixOf]
      rw [splitFrom_cons_zero, if_pos hpre, List.length_cons, List.length_singleton,
        Nat.sub_self, ih, List.count_cons_self]
    · have hpre : ['/'].isPrefixOf (c :: s) = false := by
        simp [List.isPrefixOf, Ne.symm hc]
      rw [splitFrom_cons_zero, if_neg (by rw [hpre]; decide), ih,
        List.count_cons_of_ne (Ne.symm hc)]

theorem length_Split_slash (path : String) :
    (Split path "/").length = countSlash path + 1 := by
  unfold Split countSlash
  have h : ("/" : String).toList = ['/'] := rfl
  rw [h]
  simp [length_splitFrom_slash]

theorem splitFrom_slash_piece (a rest cur : List Char) (ha : '/' ∉ a) :
    splitFrom ['/'] (a ++ '/' :: rest) 0 cur =
      (cur.reverse ++ a) :: splitFrom ['/'] rest 0 [] := by
  have hpass := splitFrom_pass ['/'] a ('/' :: rest) cur (by
    intro a1 a2 e hne
    cases a2 with
    | nil => exact (hne rfl).elim
    | cons x a2 =>
      have hx : x ∈ a := by rw [e]; simp
      have hne' : x ≠ '/' := fun h => ha (h ▸ hx)
      simp [List.isPrefixOf, Ne.symm hne'])
  rw [hpass]
  have hsep := splitFrom_sep ['/'] rest (a.reverse ++ cur) (by simp)
  simp only [List.singleton_append] at hsep
  rw [hsep]
  simp

theorem splitFrom_slash_last (b cur : List Char) (hb : '/' ∉ b) :
    splitFrom ['/'] b 0 cur = [cur.reverse ++ b] := by
  apply splitFrom_last
  intro b1 b2 e hne
  cases b2 with
  | nil => exact (hne rfl).elim
  | cons x b2 =>
    have hx : x ∈ b := by rw [e]; simp
    have hne' : x ≠ '/' := fun h => hb (h ▸ hx)
    simp [List.isPrefixOf, Ne.symm hne']

/-- The pieces of a path `/senders/<s>/campaign_types/<t>` whose `s` and `t` hold no slash. -/
theorem Split_campaign_type_path (s t : String) (hs : '/' ∉ s.toList) (ht : '/' ∉ t.toList) :
    Split ("/senders/" ++ s ++ "/campaign_types/" ++ t) "/" =
      ["", "senders", s, "campaign_types", t] := by
  unfold Split
  have hsep : ("/" : String).toList = ['/'] := rfl
  have hpath : ("/senders/" ++ s ++ "/campaign_types/" ++ t).toList =
      [] ++ '/' :: ("senders".toList ++ '/' :: (s.toList ++ '/' ::
        ("campaign_types".toList ++ '/' :: t.toList))) := by
    simp [String.toList]
  rw [hsep, if_neg (by simp), hpath,
    splitFrom_slash_piece [] _ [] (by simp),
    splitFrom_slash_piece "senders".toList _ [] (by decide),
    splitFrom_slash_piece s.toList _ [] hs,
    splitFrom_slash_piece "campaign_types".toList _ [] (by decide),
    splitFrom_slash_last t.toList [] ht]
  simp

end strings

namespace campaigntypes

variable {W : Type}

theorem errorsBody_missing_client_id (lib : GoLibrary) :
    errorsBody lib "missing client id" = "\x7b\"errors\": [\"missing client id\"]\x7d" := by
  rfl

theorem ServeHTTP_campaign_type_path (h : ShowHandler W) (lib : GoLibrary) (jlib : JSONLibrary)
    (s t : String) (context : stack.Context) (run : Run W)
    (hs : '/' ∉ s.toList) (ht : '/' ∉ t.toList) (hs0 : s ≠ "") (ht0 : t ≠ "") :
    h.ServeHTTP lib jlib ("/senders/" ++ s ++ "/campaign_types/" ++ t) context run =
      h.serveChecked lib jlib s t context run := by
  unfold ShowHandler.ServeHTTP
  rw [strings.Split_campaign_type_path s t hs ht]
  simp [indexSlice, hs0, ht0]

/-- C16, what the code does.  For a path `/senders/<s>/campaign_types/<t>` with `s` and `t`
not empty and without a slash, a client ID in the context that is not empty, and a database
in the context, `ServeHTTP` calls `collection.Get` once, and the argument that the interface
`collectionGetter` names `senderID` is `t`, the one it names `campaignTypeID` is `s`: the
call `h.collection.Get(database.Connection(), campaignTypeID, senderID, ...)` passes the two
in the other order than the interface declares them. -/
theorem ServeHTTP_Get_arguments_swapped (h : ShowHandler W) (lib : GoLibrary)
    (jlib : JSONLibrary) (s t clientID : String) (database : Nat) (context : stack.Context)
    (w : W)
    (hs : '/' ∉ s.toList) (ht : '/' ∉ t.toList) (hs0 : s ≠ "") (ht0 : t ≠ "")
    (hclient : context.Get "client_id" = some (.string clientID)) (hclient0 : clientID ≠ "")
    (hdatabase : context.Get "database" = some (.database database)) :
    ∃ ret err rest,
      (h.ServeHTTP lib jlib ("/senders/" ++ s ++ "/campaign_types/" ++ t) context
          ⟨w, []⟩).2.calls = Call.Get database t s clientID ret err :: rest ∧
        (h.collection.Get database t s clientID w).1 = (ret, err) ∧
        ∀ call ∈ rest, call.isGet = false := by
  rw [ServeHTTP_campaign_type_path h lib jlib s t context _ hs ht hs0 ht0]
  unfold ShowHandler.serveChecked
  have hne : ¬ (some (stack.Value.string clientID) = some (stack.Value.string "")) := by
    simp [hclient0]
  rw [hclient, hdatabase, if_neg hne]
  simp only [List.nil_append]
  rcases hG : h.collection.Get database t s clientID w with ⟨⟨ret, oe⟩, w1⟩
  refine ⟨ret, oe, ?_⟩
  cases oe with
  | none =>
    simp only []
    rcases json.Marshal jlib (jsonMap ret) with ⟨body, _ | e⟩
    · exact ⟨[Call.Write body], rfl, by trivial, by simp [Call.isGet]⟩
    · exact ⟨[], rfl, by trivial, by simp⟩
  | some e =>
    cases e <;> simp [Call.isGet]

/-- C16, the failing input: the sender `some-sender` and the campaign type `some-type`
reach the collection as the campaign type and the sender. -/
theorem ServeHTTP_Get_arguments_swapped_witness :
    ∃ ret err rest,
      ((fakes.showHandler ({ ID := "some-type" }, none)).ServeHTTP fakes.library
          fakes.jsonLibrary ("/senders/" ++ "some-sender" ++ "/campaign_types/" ++ "some-type")
          fakes.context ⟨0, []⟩).2.calls =
            Call.Get 1 "some-type" "some-sender" "my-client" ret err :: rest ∧
        ((fakes.showHandler ({ ID := "some-type" }, none)).collection.Get 1 "some-type"
          "some-sender" "my-client" 0).1 = (ret, err) ∧
        ∀ call ∈ rest, call.isGet = false :=
  ServeHTTP_Get_arguments_swapped (fakes.showHandler ({ ID := "some-type" }, none))
    fakes.library fakes.jsonLibrary "some-sender" "some-type" "my-client" 1 fakes.context 0
    (by decide) (by decide) (by decide) (by decide) rfl (by decide) rfl

/-- C17, what the code does.  For a path `/senders/<s>/campaign_types/<t>` with `s` and `t`
not empty and without a slash: when the context holds the empty string as client ID,
`ServeHTTP` responds 401 with the body `\x7b"errors": ["missing client id"]\x7d` and does not
call the collection; when the context holds no client ID at all, the comparison with `""`
fails, and `ServeHTTP` panics at a type assertion, having written nothing and not having
called the collection. -/
theorem ServeHTTP_missing_client_id (h : ShowHandler W) (lib : GoLibrary)
    (jlib : JSONLibrary) (s t : String) (context : stack.Context) (w : W)
    (hs : '/' ∉ s.toList) (ht : '/' ∉ t.toList) (hs0 : s ≠ "") (ht0 : t ≠ "") :
    (context.Get "client_id" = some (.string "") →
      h.ServeHTTP lib jlib ("/senders/" ++ s ++ "/campaign_types/" ++ t) context ⟨w, []⟩ =
        (.returned () none, ⟨w, [Call.WriteHeader 401,
          Call.Write "\x7b\"errors\": [\"missing client id\"]\x7d"]⟩)) ∧
    (context.Get "client_id" = none →
      h.ServeHTTP lib jlib ("/senders/" ++ s ++ "/campaign_types/" ++ t) context ⟨w, []⟩ =
        (.panicked typeAssertionError, ⟨w, []⟩)) := by
  rw [ServeHTTP_campaign_type_path h lib jlib s t context _ hs ht hs0 ht0]
  unfold ShowHandler.serveChecked
  constructor
  · intro hc
    rw [hc, if_pos rfl, errorsBody_missing_client_id]
    rfl
  · intro hc
    rw [hc, if_neg (by simp)]
    rcases context.Get "database" with _ | v
    · rfl
    · cases v <;> rfl

/-- C17, the failing input: a context without the key `client_id`; and, for comparison, the
context with the empty string. -/
theorem ServeHTTP_missing_client_id_witness :
    (stack.Context.Get [("database", .database 1), ("client_id", .string "")] "client_id" =
        some (.string "") →
      (fakes.showHandler ({}, none)).ServeHTTP fakes.library fakes.jsonLibrary
          ("/senders/" ++ "some-sender" ++ "/campaign_types/" ++ "some-type")
          [("database", .database 1), ("client_id", .string "")] ⟨0, []⟩ =
        (.returned () none, ⟨0, [Call.WriteHeader 401,
          Call.Write "\x7b\"errors\": [\"missing client id\"]\x7d"]⟩)) ∧
    (fakes.showHandler ({}, none)).ServeHTTP fakes.library fakes.jsonLibrary
        ("/senders/" ++ "some-sender" ++ "/campaign_types/" ++ "some-type")
        [("database", .database 1)] ⟨0, []⟩ =
      (.panicked typeAssertionError, ⟨0, []⟩) :=
  ⟨(ServeHTTP_missing_client_id (fakes.showHandler ({}, none)) fakes.library
      fakes.jsonLibrary "some-sender" "some-type"
      [("database", .database 1), ("client_id", .string "")] 0
      (by decide) (by decide) (by decide) (by decide)).1,
    (ServeHTTP_missing_client_id (fakes.showHandler ({}, none)) fakes.library
      fakes.jsonLibrary "some-sender" "some-type" [("database", .database 1)] 0
      (by decide) (by decide) (by decide) (by decide)).2 rfl⟩

end campaigntypes

theorem indexSlice_isSome (a : List String) (i : Int) :
    (indexSlice a i).isSome = true ↔ 0 ≤ i ∧ i < a.length := by
  unfold indexSlice
  by_cases hi : i < 0
  · rw [if_pos hi]
    simp
    omega
  · rw [if_neg hi]
    have h : (a[i.toNat]?).isSome = true ↔ i.toNat < a.length := by
      rw [Option.isSome_iff_exists]
      constructor
      · rintro ⟨x, hx⟩
        exact (List.getElem?_eq_some_iff.mp hx).1
      · intro hlt
        exact ⟨a[i.toNat], List.getElem?_eq_getElem hlt⟩
    rw [h]
    omega

namespace campaigntypes

variable {W : Type}

theorem Marshal_jsonMap (jlib : JSONLibrary) (campaignType : CampaignType) :
    (json.Marshal jlib (jsonMap campaignType)).2 = none := by
  unfold jsonMap json.Marshal
  cases campaignType.Critical <;> rfl

theorem serveChecked_ne_boundsError (h : ShowHandler W) (lib : GoLibrary) (jlib : JSONLibrary)
    (senderID campaignTypeID : String) (context : stack.Context) (run : Run W) :
    (h.serveChecked lib jlib senderID campaignTypeID context run).1 ≠
      .panicked boundsError := by
  unfold ShowHandler.serveChecked
  split
  · simp
  · split
    · split
      · simp only []
        split
        · simp
        · simp
        · split
          · rename_i e heq
            have hm := Marshal_jsonMap jlib _ ▸ congrArg Prod.snd heq
            simp at hm
          · simp
      · simp [typeAssertionError, boundsError]
    · simp [typeAssertionError, boundsError]

/-- C20.  `strings.Split(path, "/")` has one element more than the path has slashes; the
index of the last element is always in bounds, and the index of the third-from-last element
is in bounds exactly when the path holds at least two slashes.  For such a path the handler
does not panic with an index out of range, and for a path with fewer than two slashes it
does, before it calls or writes anything. -/
theorem ServeHTTP_index_bounds (h : ShowHandler W) (lib : GoLibrary) (jlib : JSONLibrary)
    (path : String) (context : stack.Context) (run : Run W) :
    (strings.Split path "/").length = strings.countSlash path + 1 ∧
      (indexSlice (strings.Split path "/")
        (((strings.Split path "/").length : Int) - 1)).isSome = true ∧
      ((indexSlice (strings.Split path "/")
        (((strings.Split path "/").length : Int) - 3)).isSome = true ↔
          2 ≤ strings.countSlash path) ∧
      (2 ≤ strings.countSlash path →
        (h.ServeHTTP lib jlib path context run).1 ≠ .panicked boundsError) ∧
      (strings.countSlash path < 2 →
        h.ServeHTTP lib jlib path context run = (.panicked boundsError, run)) := by
  have hlen := strings.length_Split_slash path
  have hlast : (indexSlice (strings.Split path "/")
      (((strings.Split path "/").length : Int) - 1)).isSome = true := by
    rw [indexSlice_isSome]
    omega
  have hthird : (indexSlice (strings.Split path "/")
      (((strings.Split path "/").length : Int) - 3)).isSome = true ↔
        2 ≤ strings.countSlash path := by
    rw [indexSlice_isSome]
    omega
  refine ⟨hlen, hlast, hthird, ?_, ?_⟩
  · intro h2
    obtain ⟨campaignTypeID, hc⟩ := Option.isSome_iff_exists.mp hlast
    obtain ⟨senderID, hsd⟩ := Option.isSome_iff_exists.mp (hthird.mpr h2)
    unfold ShowHandler.ServeHTTP
    simp only [hc, hsd]
    split
    · simp
    · split
      · simp
      · exact serveChecked_ne_boundsError h lib jlib senderID campaignTypeID context run
  · intro h2
    obtain ⟨campaignTypeID, hc⟩ := Option.isSome_iff_exists.mp hlast
    have hnone : indexSlice (strings.Split path "/")
        (((strings.Split path "/").length : Int) - 3) = none := by
      rw [← Option.not_isSome_iff_eq_none, hthird]
      omega
    unfold ShowHandler.ServeHTTP
    simp only [hc, hnone]

end campaigntypes

namespace strings

theorem messages_sep : ("/messages/" : String).toList =
    ['/', 'm', 'e', 's', 's', 'a', 'g', 'e', 's', '/'] := rfl

theorem messages_suffix : ("/messages" : String).toList =
    ['/', 'm', 'e', 's', 's', 'a', 'g', 'e', 's'] := rfl

/-- Before the separator that follows `p`, no occurrence of `/messages/` starts, when `p`
holds none and does not end in `/messages`. -/
theorem no_early_messages (p id : List Char)
    (hp : ¬ "/messages/".toList <:+: p) (hsuf : ¬ "/messages".toList <:+ p) :
    ∀ a1 a2, p = a1 ++ a2 → a2 ≠ [] →
      "/messages/".toList.isPrefixOf (a2 ++ ("/messages/".toList ++ id)) = false := by
  intro a1 a2 e hne
  rw [messages_sep] at hp ⊢
  rw [messages_suffix] at hsuf
  by_contra hcon
  rw [Bool.not_eq_false] at hcon
  rcases a2 with _ | ⟨x1, _ | ⟨x2, _ | ⟨x3, _ | ⟨x4, _ | ⟨x5, _ | ⟨x6, _ | ⟨x7, _ | ⟨x8,
    _ | ⟨x9, _ | ⟨x10, rest⟩⟩⟩⟩⟩⟩⟩⟩⟩⟩
  · exact hne rfl
  all_goals simp [List.isPrefixOf] at hcon
  · obtain ⟨h1, h2, h3, h4, h5, h6, h7, h8, h9⟩ := hcon
    subst h1 h2 h3 h4 h5 h6 h7 h8 h9
    exact hsuf ⟨a1, e.symm⟩
  · obtain ⟨h1, h2, h3, h4, h5, h6, h7, h8, h9, h10⟩ := hcon
    subst h1 h2 h3 h4 h5 h6 h7 h8 h9 h10
    exact hp ⟨a1, rest, by rw [e]; simp⟩

theorem no_match_when_absent (sep b : List Char) (hb : ¬ sep <:+: b) :
    ∀ b1 b2, b = b1 ++ b2 → b2 ≠ [] → sep.isPrefixOf b2 = false := by
  intro b1 b2 e _
  by_contra hcon
  rw [Bool.not_eq_false, List.isPrefixOf_iff_prefix] at hcon
  obtain ⟨r, hr⟩ := hcon
  exact hb ⟨b1, r, by rw [e, ← hr]; simp⟩

/-- The pieces of a path `p/messages/id` around its separator. -/
theorem Split_messages_path (p id : String)
    (hp : ¬ Contains p "/messages/") (hid : ¬ Contains id "/messages/")
    (hsuf : ¬ HasSuffix p "/messages") :
    Split (p ++ "/messages/" ++ id) "/messages/" = [p, id] := by
  unfold Split
  have hpath : (p ++ "/messages/" ++ id).toList =
      p.toList ++ ("/messages/".toList ++ id.toList) := by
    simp [String.toList]
  rw [if_neg (by rw [messages_sep]; simp), hpath,
    splitFrom_pass _ p.toList _ [] (no_early_messages p.toList id.toList hp hsuf),
    splitFrom_sep _ _ _ (by rw [messages_sep]; simp),
    splitFrom_last _ id.toList [] (no_match_when_absent _ _ hid)]
  simp

end strings

namespace messages

variable {W : Type}

theorem Marshal_document (jlib : JSONLibrary) (status : String) :
    json.Marshal jlib (document status) =
      ("\x7b" ++ jlib.encodeString "status" ++ ":" ++ jlib.encodeString status ++ "\x7d", none) := by
  unfold document json.Marshal json.encodeFields json.encodeScalar
  simp [json.encodeFields, String.intercalate, String.intercalate.go, String.append_assoc]

/-- C14, as amended.  For a request path `p + "/messages/" + id` in which neither `p` nor
`id` contains `/messages/` and `p` does not end in `/messages`, and a context that holds a
database: `ServeHTTP` calls the finder with the message ID `id`; if the finder succeeds it
writes the status 200 and the JSON document whose one field `status` is the Status of the
message found; if the finder fails it passes exactly that error to the error writer and
writes no document. -/
theorem ServeHTTP_status (h : GetHandler W) (jlib : JSONLibrary) (p id : String)
    (context : stack.Context) (database : Nat) (w : W)
    (hp : ¬ strings.Contains p "/messages/") (hid : ¬ strings.Contains id "/messages/")
    (hsuf : ¬ strings.HasSuffix p "/messages")
    (hdatabase : context.Get "database" = some (.database database)) :
    (∀ message w1, h.finder database id w = ((message, none), w1) →
      h.ServeHTTP jlib (p ++ "/messages/" ++ id) context ⟨w, []⟩ =
        (.returned () none,
          ⟨w1, [Call.Find database id message none, Call.WriteHeader 200,
            Call.Write ("\x7b" ++ jlib.encodeString "status" ++ ":" ++
              jlib.encodeString message.Status ++ "\x7d")]⟩)) ∧
    (∀ message err w1, h.finder database id w = ((message, some err), w1) →
      h.ServeHTTP jlib (p ++ "/messages/" ++ id) context ⟨w, []⟩ =
        (.returned () none,
          ⟨h.errorWriter err w1,
            [Call.Find database id message (some err), Call.errorWrite err]⟩)) := by
  have hsplit := strings.Split_messages_path p id hp hid hsuf
  have hidx : indexSlice [p, id] 1 = some id := rfl
  constructor
  · intro message w1 hF
    unfold GetHandler.ServeHTTP
    rw [hsplit, hidx]
    simp only [hdatabase, hF, writeJSON, Marshal_document, List.nil_append]
    rfl
  · intro message err w1 hF
    unfold GetHandler.ServeHTTP
    rw [hsplit, hidx]
    simp only [hdatabase, hF, List.nil_append]
    rfl

/-- C14, the claim as written fails.  Neither `/messages` nor `x` contains `/messages/`,
yet for the path `/messages/messages/x` the finder is asked for `messages/x`; and with a
context that holds no database the handler panics before it calls the finder. -/
theorem ServeHTTP_messageID_counterexample :
    (¬ strings.Contains "/messages" "/messages/" ∧ ¬ strings.Contains "x" "/messages/") ∧
      ((fakes.getHandler ({ Status := "delivered" }, none)).ServeHTTP fakes.jsonLibrary
          ("/messages" ++ "/messages/" ++ "x") fakes.context ⟨0, []⟩).2.calls =
        [Call.Find 1 "messages/x" { Status := "delivered" } none, Call.WriteHeader 200,
          Call.Write "\x7b\"status\":\"delivered\"\x7d"] ∧
      (fakes.getHandler ({ Status := "delivered" }, none)).ServeHTTP fakes.jsonLibrary
          ("" ++ "/messages/" ++ "x") [] ⟨0, []⟩ =
        (.panicked typeAssertionError, ⟨0, []⟩) := by
  decide

/-- C14, an instance: the status of the message `some-message-id` is `delivered`. -/
theorem ServeHTTP_status_witness :
    (∀ message w1,
      (fakes.getHandler ({ Status := "delivered" }, none)).finder 1 "some-message-id" 0 =
        ((message, none), w1) →
      (fakes.getHandler ({ Status := "delivered" }, none)).ServeHTTP fakes.jsonLibrary
          ("" ++ "/messages/" ++ "some-message-id") fakes.context ⟨0, []⟩ =
        (.returned () none,
          ⟨w1, [Call.Find 1 "some-message-id" message none, Call.WriteHeader 200,
            Call.Write ("\x7b" ++ fakes.jsonLibrary.encodeString "status" ++ ":" ++
              fakes.jsonLibrary.encodeString message.Status ++ "\x7d")]⟩)) ∧
    (fakes.getHandler ({ Status := "delivered" }, none)).ServeHTTP fakes.jsonLibrary
        ("" ++ "/messages/" ++ "some-message-id") fakes.context ⟨0, []⟩ =
      (.returned () none,
        ⟨0, [Call.Find 1 "some-message-id" { Status := "delivered" } none, Call.WriteHeader 200,
          Call.Write "\x7b\"status\":\"delivered\"\x7d"]⟩) :=
  ⟨(ServeHTTP_status (fakes.getHandler ({ Status := "delivered" }, none)) fakes.jsonLibrary
      "" "some-message-id" fakes.context 1 0 (by decide) (by decide) (by decide) rfl).1,
    by decide⟩

/-- C15.  For every status string, `json.Marshal` encodes the status document without
error, so `writeJSON` as `ServeHTTP` calls it writes the header and the document and does
not panic; and whenever `ServeHTTP` panics, the panic is an index out of range or a failed
type assertion, never the one of `writeJSON`. -/
theorem writeJSON_document_no_panic (h : GetHandler W) (jlib : JSONLibrary) (status : String)
    (s : Run W) :
    (json.Marshal jlib (document status)).2 = none ∧
      writeJSON jlib 200 (document status) s =
        (.returned () none, ⟨s.world, s.calls ++ [Call.WriteHeader 200,
          Call.Write (json.Marshal jlib (document status)).1]⟩) ∧
      (∀ path context e, (h.ServeHTTP jlib path context s).1 = .panicked e →
        e = boundsError ∨ e = typeAssertionError) := by
  refine ⟨by rw [Marshal_document], by unfold writeJSON; rw [Marshal_document], ?_⟩
  intro path context e he
  unfold GetHandler.ServeHTTP at he
  split at he
  · simp only [collections.Outcome.panicked.injEq] at he
    exact Or.inl he.symm
  · split at he
    · simp only [] at he
      split at he
      · simp at he
      · unfold writeJSON at he
        rw [Marshal_document] at he
        simp at he
    · simp only [collections.Outcome.panicked.injEq] at he
      exact Or.inr he.symm

/-- The panic branch of `writeJSON` is reached for a value that `json.Marshal` does not
support, such as a channel. -/
theorem writeJSON_channel_panics (jlib : JSONLibrary) (s : Run W) :
    (writeJSON jlib 200 (.scalar .channel) s).1 =
      .panicked (.foreign "json.UnsupportedTypeError" "json: unsupported type: chan int") := by
  rfl

end messages

/-! ## `Create` and the repository -/

namespace collections

namespace CampaignsCollection

variable {W : Type}

theorem callCampaignTypesGet_world (c : CampaignsCollection W) (conn : ConnectionInterface)
    (id : String) (s s1 : Run W) (r : models.CampaignType × Option GoError)
    (h : c.callCampaignTypesGet conn id s = (r, s1)) :
    s1.world = (c.campaignTypesRepo.Get conn id s.world).2 := by
  unfold callCampaignTypesGet at h
  simp only [Prod.mk.injEq] at h
  rw [← h.2]

theorem callTemplatesGet_world (c : CampaignsCollection W) (conn : ConnectionInterface)
    (id : String) (s s1 : Run W) (r : models.Template × Option GoError)
    (h : c.callTemplatesGet conn id s = (r, s1)) :
    s1.world = (c.templatesRepo.Get conn id s.world).2 := by
  unfold callTemplatesGet at h
  simp only [Prod.mk.injEq] at h
  rw [← h.2]

theorem callCampaignsSet_world (c : CampaignsCollection W) (conn : ConnectionInterface)
    (m : models.Campaign) (s s1 : Run W) (r : models.Campaign × Option GoError)
    (h : c.callCampaignsSet conn m s = (r, s1)) :
    s1.world = (c.campaignsRepo.Set conn m s.world).2 ∧
      r = (c.campaignsRepo.Set conn m s.world).1 := by
  unfold callCampaignsSet at h
  simp only [Prod.mk.injEq] at h
  rw [← h.2, ← h.1]
  exact ⟨rfl, rfl⟩

theorem callEnqueue_world (c : CampaignsCollection W) (campaign : Campaign) (jobType : String)
    (s s1 : Run W) (oe : Option GoError)
    (h : c.callEnqueue campaign jobType s = (oe, s1)) :
    s1.world = (c.enqueuer.Enqueue campaign jobType s.world).2 := by
  unfold callEnqueue at h
  simp only [Prod.mk.injEq] at h
  rw [← h.2]

theorem existenceStep_world (c : CampaignsCollection W) (lib : GoLibrary) (campaign : Campaign)
    (s : Run W) :
    (c.existenceStep lib campaign s).2.world = s.world ∨
      ∃ f guid, (c.existenceStep lib campaign s).2.world = ((c.finder f).Exists guid s.world).2 := by
  unfold existenceStep checkForExistence
  by_cases h1 : campaign.SendTo.rangeLastKey = "user"
  · rw [if_pos h1]; exact Or.inr ⟨.user, _, rfl⟩
  rw [if_neg h1]
  by_cases h2 : campaign.SendTo.rangeLastKey = "space"
  · rw [if_pos h2]; exact Or.inr ⟨.space, _, rfl⟩
  rw [if_neg h2]
  by_cases h3 : campaign.SendTo.rangeLastKey = "org"
  · rw [if_pos h3]; exact Or.inr ⟨.org, _, rfl⟩
  rw [if_neg h3]
  by_cases h4 : campaign.SendTo.rangeLastKey = "email"
  · rw [if_pos h4]; exact Or.inl rfl
  · rw [if_neg h4]; exact Or.inl rfl

/-- C19.  Let `rows` read the campaign rows out of the collaborators' world, where only a
successful `campaignsRepo.Set` changes them, by adding the row it returns.  In a run of
`Create` in which `Enqueue` fails with `e` (validation had passed and `Set` had succeeded),
`Create` returns `Campaign{}` and `PersistenceError{e}` while the row written by `Set` is
still in the repository; on every other error return the rows are those from before the
call. -/
theorem Create_not_atomic (c : CampaignsCollection W) (lib : GoLibrary)
    (conn : ConnectionInterface) (campaign : Campaign) (can : Bool) (w : W)
    (rows : W → List models.Campaign)
    (hFinder : ∀ f guid w, rows ((c.finder f).Exists guid w).2 = rows w)
    (hTypes : ∀ cn id w, rows (c.campaignTypesRepo.Get cn id w).2 = rows w)
    (hTemplates : ∀ cn id w, rows (c.templatesRepo.Get cn id w).2 = rows w)
    (hEnqueue : ∀ cmp jobType w, rows (c.enqueuer.Enqueue cmp jobType w).2 = rows w)
    (hSet : ∀ cn m w, (c.campaignsRepo.Set cn m w).1.2 = none →
      rows (c.campaignsRepo.Set cn m w).2 = rows w ++ [(c.campaignsRepo.Set cn m w).1.1]) :
    (∀ cmp jobType e,
      Call.Enqueue cmp jobType (some e) ∈ (c.Create lib conn campaign can ⟨w, []⟩).2.calls →
      (c.Create lib conn campaign can ⟨w, []⟩).1 = .returned {} (some (.PersistenceError e)) ∧
        ∃ m saved,
          Call.campaignsSet conn m saved none ∈
            (c.Create lib conn campaign can ⟨w, []⟩).2.calls ∧
          rows (c.Create lib conn campaign can ⟨w, []⟩).2.world = rows w ++ [saved]) ∧
    (∀ v err, (c.Create lib conn campaign can ⟨w, []⟩).1 = .returned v (some err) →
      (∀ cmp jobType e, Call.Enqueue cmp jobType (some e) ∉
        (c.Create lib conn campaign can ⟨w, []⟩).2.calls) →
      rows (c.Create lib conn campaign can ⟨w, []⟩).2.world = rows w) := by
  have hs1 : ∀ s1 a, c.existenceStep lib campaign ⟨w, []⟩ = (a, s1) →
      (∀ call ∈ s1.calls, call.isExists = true) ∧ rows s1.world = rows w := by
    intro s1 a hE
    have h1 := existenceStep_calls c lib campaign w
    have h2 := existenceStep_world c lib campaign ⟨w, []⟩
    rw [hE] at h1 h2
    refine ⟨h1, ?_⟩
    rcases h2 with h | ⟨f, guid, h⟩
    · rw [h]
    · rw [h]
      exact hFinder f guid w
  have hs2 : ∀ s1 s2 r, c.callCampaignTypesGet conn campaign.CampaignTypeID s1 = (r, s2) →
      rows s2.world = rows s1.world := by
    intro s1 s2 r hT
    rw [callCampaignTypesGet_world c conn _ _ _ _ hT]
    exact hTypes _ _ _
  have hs3 : ∀ id s2 s3 r, c.callTemplatesGet conn id s2 = (r, s3) →
      rows s3.world = rows s2.world := by
    intro id s2 s3 r hG
    rw [callTemplatesGet_world c conn _ _ _ _ hG]
    exact hTemplates _ _ _
  rcases validate_cases c lib conn campaign can ⟨w, []⟩ with
    ⟨b, e, s1, hE, hV⟩ | ⟨s1, hE, hV⟩ | ⟨s1, ct, e, s2, hE, hT, hV⟩ |
    ⟨s1, ct, s2, hE, hT, hc, hcan, hV⟩ | ⟨s1, ct, s2, tpl, e, s3, hE, hT, hc, hG, hV⟩ |
    ⟨s1, ct, s2, tpl, s3, hE, hT, hc, hG, hV⟩
  · obtain ⟨hcalls, hrows⟩ := hs1 _ _ hE
    rw [Create_of_error c lib conn campaign can _ _ _ hV]
    refine ⟨fun cmp jt e' hmem => ?_, fun _ _ _ _ => hrows⟩
    exact (not_isExists_of_mem _ hcalls _ hmem rfl).elim
  · obtain ⟨hcalls, hrows⟩ := hs1 _ _ hE
    rw [Create_of_error c lib conn campaign can _ _ _ hV]
    refine ⟨fun cmp jt e' hmem => ?_, fun _ _ _ _ => hrows⟩
    exact (not_isExists_of_mem _ hcalls _ hmem rfl).elim
  · obtain ⟨hcalls, hrows⟩ := hs1 _ _ hE
    rw [Create_of_error c lib conn campaign can _ _ _ hV]
    refine ⟨fun cmp jt e' hmem => ?_, fun _ _ _ _ => (hs2 _ _ _ hT).trans hrows⟩
    simp only [callCampaignTypesGet_calls c conn _ _ _ _ _ hT, List.mem_append,
      List.mem_singleton] at hmem
    rcases hmem with h | h
    · exact (not_isExists_of_mem _ hcalls _ h rfl).elim
    · simp at h
  · obtain ⟨hcalls, hrows⟩ := hs1 _ _ hE
    rw [Create_of_error c lib conn campaign can _ _ _ hV]
    refine ⟨fun cmp jt e' hmem => ?_, fun _ _ _ _ => (hs2 _ _ _ hT).trans hrows⟩
    simp only [callCampaignTypesGet_calls c conn _ _ _ _ _ hT, List.mem_append,
      List.mem_singleton] at hmem
    rcases hmem with h | h
    · exact (not_isExists_of_mem _ hcalls _ h rfl).elim
    · simp at h
  · obtain ⟨hcalls, hrows⟩ := hs1 _ _ hE
    rw [Create_of_error c lib conn campaign can _ _ _ hV]
    refine ⟨fun cmp jt e' hmem => ?_,
      fun _ _ _ _ => ((hs3 _ _ _ _ hG).trans (hs2 _ _ _ hT)).trans hrows⟩
    simp only [callTemplatesGet_calls c conn _ _ _ _ _ hG,
      callCampaignTypesGet_calls c conn _ _ _ _ _ hT, List.mem_append,
      List.mem_singleton] at hmem
    rcases hmem with (h | h) | h
    · exact (not_isExists_of_mem _ hcalls _ h rfl).elim
    · simp at h
    · simp at h
  · obtain ⟨hcalls, hrows⟩ := hs1 _ _ hE
    have hrows3 : rows s3.world = rows w :=
      ((hs3 _ _ _ _ hG).trans (hs2 _ _ _ hT)).trans hrows
    have hcalls3 : ∀ cmp jt oe, Call.Enqueue cmp jt oe ∉ s3.calls := by
      intro cmp jt oe hmem
      simp only [callTemplatesGet_calls c conn _ _ _ _ _ hG,
        callCampaignTypesGet_calls c conn _ _ _ _ _ hT, List.mem_append,
        List.mem_singleton] at hmem
      rcases hmem with (h | h) | h
      · exact not_isExists_of_mem _ hcalls _ h rfl
      · simp at h
      · simp at h
    rw [Create_of_ok c lib conn campaign _ can _ _ hV]
    rcases persistAndEnqueue_cases c lib conn (resolveTemplate campaign ct) s3 with
      ⟨str, e, hM, hP⟩ | ⟨sendTo, m, e, s4, hM, hS, hP⟩ |
      ⟨sendTo, saved, s4, e, s5, hM, hS, hQ, hP⟩ | ⟨sendTo, saved, s4, s5, hM, hS, hQ, hP⟩
    · rw [hP]
      exact ⟨fun cmp jt e' hmem => (hcalls3 _ _ _ hmem).elim, fun v err h => by simp at h⟩
    · rw [hP]
      refine ⟨fun cmp jt e' hmem => ?_, fun v err h => by simp at h⟩
      simp only [callCampaignsSet_calls c conn _ _ _ _ _ hS, List.mem_append,
        List.mem_singleton] at hmem
      rcases hmem with h | h
      · exact (hcalls3 _ _ _ h).elim
      · simp at h
    · rw [hP]
      have hcalls5 : s5.calls = s3.calls ++
          [Call.campaignsSet conn (setArgument sendTo (resolveTemplate campaign ct)) saved none,
            Call.Enqueue { resolveTemplate campaign ct with ID := saved.ID } "campaign"
              (some e)] := by
        rw [callEnqueue_calls c _ _ _ _ _ hQ, callCampaignsSet_calls c conn _ _ _ _ _ hS]
        simp
      obtain ⟨hw4, hr4⟩ := callCampaignsSet_world c conn _ _ _ _ hS
      have hrows5 : rows s5.world = rows w ++ [saved] := by
        rw [callEnqueue_world c _ _ _ _ _ hQ, hEnqueue, hw4,
          hSet conn _ s3.world (by rw [← hr4]), ← hr4, hrows3]
      constructor
      · intro cmp jt e' hmem
        simp only [hcalls5, List.mem_append, List.mem_cons, List.mem_singleton,
          List.not_mem_nil, or_false] at hmem
        rcases hmem with h | h | h
        · exact (hcalls3 _ _ _ h).elim
        · simp at h
        · simp only [Call.Enqueue.injEq, Option.some.injEq] at h
          refine ⟨by rw [h.2.2], setArgument sendTo (resolveTemplate campaign ct), saved, ?_,
            hrows5⟩
          simp [hcalls5]
      · intro v err _ hno
        refine (hno { resolveTemplate campaign ct with ID := saved.ID } "campaign" e ?_).elim
        show _ ∈ s5.calls
        rw [hcalls5]
        simp
    · rw [hP]
      refine ⟨fun cmp jt e' hmem => ?_, fun v err h => by simp at h⟩
      simp only [callEnqueue_calls c _ _ _ _ _ hQ, callCampaignsSet_calls c conn _ _ _ _ _ hS,
        List.mem_append, List.mem_singleton] at hmem
      rcases hmem with (h | h) | h
      · exact (hcalls3 _ _ _ h).elim
      · simp at h
      · simp at h

/-- C19, an instance: the queue refuses the job with `BOOM`; the row stays in the store. -/
theorem Create_not_atomic_witness :
    (∀ cmp jobType e,
      Call.Enqueue cmp jobType (some e) ∈
        ((fakes.collection { enqueueError := some (.errorString "BOOM") }).Create
          fakes.library 7 fakes.campaign false ⟨{}, []⟩).2.calls →
      ((fakes.collection { enqueueError := some (.errorString "BOOM") }).Create
          fakes.library 7 fakes.campaign false ⟨{}, []⟩).1 =
        .returned {} (some (.PersistenceError e)) ∧
        ∃ m saved,
          Call.campaignsSet 7 m saved none ∈
            ((fakes.collection { enqueueError := some (.errorString "BOOM") }).Create
              fakes.library 7 fakes.campaign false ⟨{}, []⟩).2.calls ∧
          fakes.Store.rows ((fakes.collection
            { enqueueError := some (.errorString "BOOM") }).Create
              fakes.library 7 fakes.campaign false ⟨{}, []⟩).2.world =
            fakes.Store.rows {} ++ [saved]) ∧
    Call.Enqueue { fakes.campaign with ID := "campaign-id" } "campaign"
        (some (.errorString "BOOM")) ∈
      ((fakes.collection { enqueueError := some (.errorString "BOOM") }).Create
        fakes.library 7 fakes.campaign false ⟨{}, []⟩).2.calls ∧
    (((fakes.collection { enqueueError := some (.errorString "BOOM") }).Create
        fakes.library 7 fakes.campaign false ⟨{}, []⟩).2.world).rows.length = 1 :=
  ⟨(Create_not_atomic (fakes.collection { enqueueError := some (.errorString "BOOM") })
      fakes.library 7 fakes.campaign false {} fakes.Store.rows
      (fun f _ _ => by cases f <;> rfl) (fun _ _ _ => rfl) (fun _ _ _ => rfl)
      (fun _ _ _ => rfl) (fun _ _ _ _ => rfl)).1,
    by decide, by decide⟩

theorem callEnqueue_result (c : CampaignsCollection W) (campaign : Campaign) (jobType : String)
    (s s1 : Run W) (oe : Option GoError)
    (h : c.callEnqueue campaign jobType s = (oe, s1)) :
    c.enqueuer.Enqueue campaign jobType s.world = (oe, s1.world) := by
  unfold callEnqueue at h
  simp only [Prod.mk.injEq] at h
  rw [← h.2, ← h.1]

theorem resolveTemplate_SendTo (campaign : Campaign) (ct : models.CampaignType) :
    (resolveTemplate campaign ct).SendTo = campaign.SendTo := by
  unfold resolveTemplate
  split <;> rfl

/-- C2.  When `Create` succeeds with the campaign `v`: the world after validation is
handed to `campaignsRepo.Set` once, with the row built from `v` and the marshalled `SendTo`;
the world that `Set` leaves is handed to `enqueuer.Enqueue` once, with `v` and the job type
`campaign`, and the world that `Enqueue` leaves is the final world of the run.  The
transcript ends with these two calls, in this order; no earlier call is a `Set` or an
`Enqueue`, so each of the two is called exactly once; and the ID of `v` is the ID of the
model that `Set` returned. -/
theorem Create_success_calls (c : CampaignsCollection W) (lib : GoLibrary)
    (conn : ConnectionInterface) (campaign : Campaign) (can : Bool) (w : W) (v : Campaign)
    (hret : (c.Create lib conn campaign can ⟨w, []⟩).1 = .returned v none) :
    (∃ pre sendTo saved w4,
      (c.Create lib conn campaign can ⟨w, []⟩).2.calls =
        pre ++ [Call.campaignsSet conn (setArgument sendTo v) saved none,
          Call.Enqueue v "campaign" none] ∧
      (∀ call ∈ pre, call.isCampaignsSet = false ∧ call.isEnqueue = false) ∧
      v.ID = saved.ID ∧
      lib.jsonMarshal campaign.SendTo = (sendTo, none) ∧
      c.campaignsRepo.Set conn (setArgument sendTo v)
        (c.validate lib conn campaign can ⟨w, []⟩).2.world = ((saved, none), w4) ∧
      c.enqueuer.Enqueue v "campaign" w4 =
        (none, (c.Create lib conn campaign can ⟨w, []⟩).2.world)) ∧
    (c.Create lib conn campaign can ⟨w, []⟩).2.calls.countP Call.isCampaignsSet = 1 ∧
    (c.Create lib conn campaign can ⟨w, []⟩).2.calls.countP Call.isEnqueue = 1 := by
  rcases validate_cases c lib conn campaign can ⟨w, []⟩ with
    ⟨b, e, s1, hE, hV⟩ | ⟨s1, hE, hV⟩ | ⟨s1, ct, e, s2, hE, hT, hV⟩ |
    ⟨s1, ct, s2, hE, hT, hc, hcan, hV⟩ | ⟨s1, ct, s2, tpl, e, s3, hE, hT, hc, hG, hV⟩ |
    ⟨s1, ct, s2, tpl, s3, hE, hT, hc, hG, hV⟩
  · rw [Create_of_error c lib conn campaign can _ _ _ hV] at hret
    simp at hret
  · rw [Create_of_error c lib conn campaign can _ _ _ hV] at hret
    simp at hret
  · rw [Create_of_error c lib conn campaign can _ _ _ hV] at hret
    simp at hret
  · rw [Create_of_error c lib conn campaign can _ _ _ hV] at hret
    simp at hret
  · rw [Create_of_error c lib conn campaign can _ _ _ hV] at hret
    simp at hret
  · have hcalls1 : ∀ call ∈ s1.calls, call.isExists = true := by
      have h1 := existenceStep_calls c lib campaign w
      rw [hE] at h1
      exact h1
    have hpre : ∀ call ∈ s3.calls, call.isCampaignsSet = false ∧ call.isEnqueue = false := by
      intro call hcall
      simp only [callTemplatesGet_calls c conn _ _ _ _ _ hG,
        callCampaignTypesGet_calls c conn _ _ _ _ _ hT, List.mem_append,
        List.mem_singleton] at hcall
      rcases hcall with (h | h) | h
      · have := hcalls1 call h
        cases call <;> simp_all [Call.isExists, Call.isCampaignsSet, Call.isEnqueue]
      · rw [h]; exact ⟨rfl, rfl⟩
      · rw [h]; exact ⟨rfl, rfl⟩
    have hcountSet : s3.calls.countP Call.isCampaignsSet = 0 := by
      rw [List.countP_eq_zero]
      intro call hcall
      simp [(hpre call hcall).1]
    have hcountEnq : s3.calls.countP Call.isEnqueue = 0 := by
      rw [List.countP_eq_zero]
      intro call hcall
      simp [(hpre call hcall).2]
    rw [hV]
    rw [Create_of_ok c lib conn campaign _ can _ _ hV] at hret ⊢
    rcases persistAndEnqueue_cases c lib conn (resolveTemplate campaign ct) s3 with
      ⟨str, e, hM, hP⟩ | ⟨sendTo, m, e, s4, hM, hS, hP⟩ |
      ⟨sendTo, saved, s4, e, s5, hM, hS, hQ, hP⟩ | ⟨sendTo, saved, s4, s5, hM, hS, hQ, hP⟩
    · rw [hP] at hret
      simp at hret
    · rw [hP] at hret
      simp at hret
    · rw [hP] at hret
      simp at hret
    · rw [hP] at hret ⊢
      simp only [Outcome.returned.injEq, and_true] at hret
      subst hret
      rw [resolveTemplate_SendTo] at hM
      have hcalls5 : s5.calls = s3.calls ++
          [Call.campaignsSet conn (setArgument sendTo (resolveTemplate campaign ct)) saved none,
            Call.Enqueue { resolveTemplate campaign ct with ID := saved.ID } "campaign"
              none] := by
        rw [callEnqueue_calls c _ _ _ _ _ hQ, callCampaignsSet_calls c conn _ _ _ _ _ hS]
        simp
      obtain ⟨hw4, hr4⟩ := callCampaignsSet_world c conn _ _ _ _ hS
      have hSet : c.campaignsRepo.Set conn (setArgument sendTo (resolveTemplate campaign ct))
          s3.world = ((saved, none), s4.world) := by
        rw [hw4, hr4]
      have hEnq := callEnqueue_result c _ _ _ _ _ hQ
      refine ⟨⟨s3.calls, sendTo, saved, s4.world, hcalls5, hpre, rfl, hM, hSet, hEnq⟩, ?_, ?_⟩
      · show s5.calls.countP Call.isCampaignsSet = 1
        rw [hcalls5]
        simp [List.countP_append, hcountSet, List.countP_cons, Call.isCampaignsSet]
      · show s5.calls.countP Call.isEnqueue = 1
        rw [hcalls5]
        simp [List.countP_append, hcountEnq, List.countP_cons, Call.isEnqueue]

/-- C2, an instance: a campaign for an existing user; afterwards the store holds the one row
and the one job. -/
theorem Create_success_calls_witness :
    (((fakes.collection {}).Create fakes.library 7 fakes.campaign false ⟨{}, []⟩).1 =
        .returned { fakes.campaign with ID := "campaign-id" } none ∧
      ((fakes.collection {}).Create fakes.library 7 fakes.campaign false ⟨{}, []⟩).2.world =
        { rows := [{ setArgument "\x7b\"user\":\"user-380\"\x7d" fakes.campaign with
            ID := "campaign-id" }]
          jobs := [({ fakes.campaign with ID := "campaign-id" }, "campaign")] }) ∧
    ((∃ pre sendTo saved w4,
      ((fakes.collection {}).Create fakes.library 7 fakes.campaign false ⟨{}, []⟩).2.calls =
        pre ++ [Call.campaignsSet 7
            (setArgument sendTo { fakes.campaign with ID := "campaign-id" }) saved none,
          Call.Enqueue { fakes.campaign with ID := "campaign-id" } "campaign" none] ∧
      (∀ call ∈ pre, call.isCampaignsSet = false ∧ call.isEnqueue = false) ∧
      ({ fakes.campaign with ID := "campaign-id" } : Campaign).ID = saved.ID ∧
      fakes.library.jsonMarshal fakes.campaign.SendTo = (sendTo, none) ∧
      (fakes.collection {}).campaignsRepo.Set 7
          (setArgument sendTo { fakes.campaign with ID := "campaign-id" })
          ((fakes.collection {}).validate fakes.library 7 fakes.campaign false
            ⟨{}, []⟩).2.world = ((saved, none), w4) ∧
      (fakes.collection {}).enqueuer.Enqueue { fakes.campaign with ID := "campaign-id" }
          "campaign" w4 =
        (none, ((fakes.collection {}).Create fakes.library 7 fakes.campaign false
          ⟨{}, []⟩).2.world)) ∧
    ((fakes.collection {}).Create fakes.library 7 fakes.campaign false ⟨{}, []⟩).2.calls.countP
      Call.isCampaignsSet = 1 ∧
    ((fakes.collection {}).Create fakes.library 7 fakes.campaign false ⟨{}, []⟩).2.calls.countP
      Call.isEnqueue = 1) :=
  ⟨⟨by decide, by decide⟩,
    Create_success_calls (fakes.collection {}) fakes.library 7 fakes.campaign false {}
      { fakes.campaign with ID := "campaign-id" } (by decide)⟩

end CampaignsCollection

end collections

end notifications
